import Mathlib

/-!
The program multi_tool_agent: its two tool handlers and the agent assembly.

A shallow embedding of `src/multi_tool_agent/agent.go`.

* Go strings are byte sequences (`GoString`); they need not be valid UTF-8.
* The Go standard-library functions the handlers call (`strings.EqualFold`,
  `utf8.DecodeRuneInString`, `unicode.SimpleFold`, `fmt.Sprintf`, `Time.Format`)
  are modelled next to the handlers, each following the library's control flow.
* What the handlers read from their surroundings (the Unicode tables beyond the
  orbits of the ASCII letters, the timezone database, the clock) is an explicit
  argument.
-/

namespace MultiToolAgent

/-! ## Go strings -/

/-- A Go string: a sequence of bytes. -/
abbrev GoString := List Nat

/-- The bytes of a string literal (its UTF-8 encoding). -/
def goStr (s : String) : GoString :=
  s.toUTF8.data.toList.map UInt8.toNat

/-! ## Package unicode/utf8 -/

/-- Constant `utf8.RuneSelf`: bytes below it are single-byte runes. -/
def RuneSelf : Nat := 0x80

/-- Constant `utf8.RuneError`, U+FFFD. -/
def RuneError : Nat := 0xFFFD

/-- Constant `unicode.MaxRune`. -/
def MaxRune : Nat := 0x10FFFF

/-- Table `first` of package utf8: information about the first byte of an
encoding. `0xF0` is ASCII (`as`), `0xF1` is invalid (`xx`); otherwise the low
three bits are the size and the high four bits index `acceptRanges`. -/
def first (b : Nat) : Nat :=
  if b < 0x80 then 0xF0
  else if b < 0xC2 then 0xF1
  else if b < 0xE0 then 0x02
  else if b = 0xE0 then 0x13
  else if b < 0xED then 0x03
  else if b = 0xED then 0x23
  else if b < 0xF0 then 0x03
  else if b = 0xF0 then 0x34
  else if b < 0xF4 then 0x04
  else if b = 0xF4 then 0x44
  else 0xF1

/-- Table `acceptRanges` of package utf8: the range allowed for the second byte. -/
def acceptRanges (i : Nat) : Nat × Nat :=
  match i with
  | 0 => (0x80, 0xBF)
  | 1 => (0xA0, 0xBF)
  | 2 => (0x80, 0x9F)
  | 3 => (0x90, 0xBF)
  | 4 => (0x80, 0x8F)
  | _ => (0, 0)

/-- Function `utf8.DecodeRuneInString`: the first rune of `s` and its width in
bytes; an invalid encoding gives `(RuneError, 1)`, the empty string
`(RuneError, 0)`. The masks and shifts of the source are written with `%` and
`*` (the bit fields do not overlap). -/
def DecodeRuneInString (s : GoString) : Nat × Nat :=
  match s with
  | [] => (RuneError, 0)
  | s0 :: _ =>
    let x := first s0
    if x ≥ 0xF0 then
      (if x = 0xF1 then RuneError else s0, 1)
    else
      let sz := x % 8
      let accept := acceptRanges (x / 16)
      if s.length < sz then (RuneError, 1)
      else
        let s1 := s.getD 1 0
        if s1 < accept.1 ∨ accept.2 < s1 then (RuneError, 1)
        else if sz ≤ 2 then ((s0 % 32) * 64 + s1 % 64, 2)
        else
          let s2 := s.getD 2 0
          if s2 < 0x80 ∨ 0xBF < s2 then (RuneError, 1)
          else if sz ≤ 3 then ((s0 % 16) * 4096 + (s1 % 64) * 64 + s2 % 64, 3)
          else
            let s3 := s.getD 3 0
            if s3 < 0x80 ∨ 0xBF < s3 then (RuneError, 1)
            else ((s0 % 8) * 262144 + (s1 % 64) * 4096 + (s2 % 64) * 64 + s3 % 64, 4)

/-- The runes a `for _, r := range s` loop yields. `skip` counts the bytes of
the current encoding still to be passed over (`s = s[size:]`). -/
def rangeRunes : Nat → GoString → List Nat
  | _, [] => []
  | skip + 1, _ :: rest => rangeRunes skip rest
  | 0, b :: rest =>
    (DecodeRuneInString (b :: rest)).1 ::
      rangeRunes ((DecodeRuneInString (b :: rest)).2 - 1) rest

/-- The rune sequence of a Go string. -/
def runes (s : GoString) : List Nat := rangeRunes 0 s

/-! ## Package unicode: simple case folding -/

/-- Table `asciiFold` of package unicode: `SimpleFold` on the ASCII range.
Letters swap case, except that `k` goes on to U+212A (KELVIN SIGN) and `s` to
U+017F (LONG S). -/
def asciiFold (r : Nat) : Nat :=
  if r = 0x6B then 0x212A
  else if r = 0x73 then 0x17F
  else if 0x41 ≤ r ∧ r ≤ 0x5A then r + 0x20
  else if 0x61 ≤ r ∧ r ≤ 0x7A then r - 0x20
  else r

/-- Function `unicode.SimpleFold`. The ASCII range is the table `asciiFold`; the
two `caseOrbit` entries that close the orbits of ASCII letters (U+212A back to
`K`, U+017F back to `S`) are written out. Every other rune is looked up in the
remaining Unicode tables (`caseOrbit`, `CaseRanges`), which are data of the Go
distribution and are taken as the argument `U`. -/
def SimpleFold (U : Nat → Nat) (r : Nat) : Nat :=
  if r > MaxRune then r
  else if r < 0x80 then asciiFold r
  else if r = 0x212A then 0x4B
  else if r = 0x17F then 0x53
  else U r

/-! ## Package strings: EqualFold -/

/-- Bound on the iterations of the orbit walk of `EqualFold`: one more than the
number of runes. -/
def foldFuel : Nat := 0x110001

/-- The orbit walk of `EqualFold`:
`for r != sr && r < tr { r = unicode.SimpleFold(r) }`, giving the final `r`;
`none` when the walk has not stopped after `fuel` tests. -/
def foldWalk (U : Nat → Nat) (sr tr : Nat) : Nat → Nat → Option Nat
  | 0, _ => none
  | fuel + 1, r =>
    if r ≠ sr ∧ r < tr then foldWalk U sr tr fuel (SimpleFold U r) else some r

/-- The `hasUnicode` loop of `strings.EqualFold`: `srs` are the runes that
`range s` yields, `t` is the rest of the second string, decoded one rune per
iteration. `none` when an orbit walk inside does not stop. -/
def unicodeLoop (U : Nat → Nat) : List Nat → GoString → Option Bool
  | [], t => some (decide (t.length = 0))
  | sr :: srs, t =>
    if t.length = 0 then some false
    else
      let t0 := t.headD 0
      let tr := if t0 < RuneSelf then t0 else (DecodeRuneInString t).1
      let t' := if t0 < RuneSelf then t.drop 1 else t.drop (DecodeRuneInString t).2
      if tr = sr then unicodeLoop U srs t'
      else
        let lo := if tr < sr then tr else sr
        let hi := if tr < sr then sr else tr
        if hi < RuneSelf then
          if 0x41 ≤ lo ∧ lo ≤ 0x5A ∧ hi = lo + 0x61 - 0x41 then unicodeLoop U srs t'
          else some false
        else
          match foldWalk U lo hi foldFuel (SimpleFold U lo) with
          | none => none
          | some r => if r = hi then unicodeLoop U srs t' else some false

/-- The ASCII fast path of `strings.EqualFold`, the loop over the common byte
positions of `s` and `t`. The lists are the parts of the two strings from the
current index on, so the final `len(s) == len(t)` compares what is left. On the
first non-ASCII byte the rest is handed to the `hasUnicode` loop. -/
def asciiLoop (U : Nat → Nat) : GoString → GoString → Option Bool
  | sr :: s, tr :: t =>
    if sr ||| tr ≥ RuneSelf then unicodeLoop U (runes (sr :: s)) (tr :: t)
    else if tr = sr then asciiLoop U s t
    else
      let lo := if tr < sr then tr else sr
      let hi := if tr < sr then sr else tr
      if 0x41 ≤ lo ∧ lo ≤ 0x5A ∧ hi = lo + 0x61 - 0x41 then asciiLoop U s t
      else some false
  | s, t => some (decide (s.length = t.length))

/-- Function `strings.EqualFold`: equality of `s` and `t` under simple Unicode
case folding. `none` stands for a call that does not return. -/
def EqualFold (U : Nat → Nat) (s t : GoString) : Option Bool :=
  asciiLoop U s t

/-! ## Package fmt: Sprintf -/

/-- Function `fmt.Sprintf` on the fragment the handlers use. The operands are
strings or errors, each given by the bytes it prints (an error prints its
`Error()` text). Bytes of the format other than `%` are copied; `%s` and `%v`
print the next operand unchanged; `%%` prints a percent sign. `none` when the
format leaves this fragment (another verb, a missing or a surplus operand). -/
def Sprintf : GoString → List GoString → Option GoString
  | [], [] => some []
  | [], _ :: _ => none
  | 0x25 :: 0x25 :: rest, args => (Sprintf rest args).map (fun out => 0x25 :: out)
  | 0x25 :: v :: rest, a :: args =>
    if v = 0x73 ∨ v = 0x76 then (Sprintf rest args).map (fun out => a ++ out) else none
  | 0x25 :: _, _ => none
  | b :: rest, args => (Sprintf rest args).map (fun out => b :: out)

/-! ## Package time: zones, civil time and Format -/

/-- What `Location.lookup` yields for an instant: the zone abbreviation and the
offset in seconds east of UTC. -/
structure Zone where
  name : GoString
  offset : Int
deriving DecidableEq

/-- A loaded `*time.Location`: the zone in effect at each Unix time. The zone
data itself comes from the timezone database of the host. -/
structure Location where
  lookup : Int → Zone

/-- Method `Time.abs` for a time with a location: seconds since the absolute
zero year of package time, as a `uint64` (so modulo `2^64`).
`9223372028715321600` is `unixToInternal + internalToAbsolute`. -/
def absSeconds (unixSec offset : Int) : Nat :=
  ((unixSec + offset + 9223372028715321600) % 18446744073709551616).toNat

/-- Constant `absoluteZeroYear` of package time. -/
def absoluteZeroYear : Int := -292277022399

/-- Function `isLeap` of package time. -/
def isLeap (year : Int) : Bool :=
  year.tmod 4 = 0 ∧ (year.tmod 100 ≠ 0 ∨ year.tmod 400 = 0)

/-- Table `daysBefore` of package time: days in a non-leap year before month
`m + 1`. -/
def daysBefore (m : Nat) : Nat :=
  [0, 31, 59, 90, 120, 151, 181, 212, 243, 273, 304, 334, 365].getD m 0

/-- Function `absDate` of package time (with `full = true`): year, month
(January is 1) and day of the month of an absolute time, by the cycles of 400,
100, 4 and 1 years. Releases of Go that compute the date by another route give
the same proleptic Gregorian date. -/
def absDate (abs : Nat) : Int × Nat × Nat :=
  let d := abs / 86400
  -- 400-year cycles
  let n := d / 146097
  let y := 400 * n
  let d := d - 146097 * n
  -- 100-year cycles
  let n := d / 36524
  let n := n - n / 4
  let y := y + 100 * n
  let d := d - 36524 * n
  -- 4-year cycles
  let n := d / 1461
  let y := y + 4 * n
  let d := d - 1461 * n
  -- years within a 4-year cycle
  let n := d / 365
  let n := n - n / 4
  let y := y + n
  let d := d - 365 * n
  let year : Int := (y : Int) + absoluteZeroYear
  let yday := d
  if isLeap year ∧ yday = 31 + 29 - 1 then (year, 2, 29)
  else
    let day := if isLeap year ∧ yday > 31 + 29 - 1 then yday - 1 else yday
    let month := day / 31
    let stop := daysBefore (month + 1)
    if day ≥ stop then (year, month + 2, day - stop + 1)
    else (year, month + 1, day - daysBefore month + 1)

/-- Function `absClock` of package time: hour, minute and second of the day. -/
def absClock (abs : Nat) : Nat × Nat × Nat :=
  let sec := abs % 86400
  let hour := sec / 3600
  let sec := sec - hour * 3600
  let min := sec / 60
  let sec := sec - min * 60
  (hour, min, sec)

/-- Function `appendInt` of package time: the decimal form of `x`, with a minus
sign when negative, padded with zeros to at least `width` digits. -/
def appendInt (x : Int) (width : Nat) : GoString :=
  let ds := (Nat.toDigits 10 x.natAbs).map Char.toNat
  (if x < 0 then [0x2D] else []) ++ List.replicate (width - ds.length) 0x30 ++ ds

/-- The layout elements (`std...` constants of package time) that occur in the
layout of `getCurrentTime`, and literal text. -/
inductive Chunk where
  | lit (s : GoString)
  | stdLongYear
  | stdZeroMonth
  | stdZeroDay
  | stdHour
  | stdZeroMinute
  | stdZeroSecond
  | stdTZ
  | stdNumTZ

/-- The layout `"2006-01-02 15:04:05 MST-0700"` as `nextStdChunk` splits it. -/
def layoutChunks : List Chunk :=
  [.stdLongYear, .lit (goStr "-"), .stdZeroMonth, .lit (goStr "-"), .stdZeroDay,
   .lit (goStr " "), .stdHour, .lit (goStr ":"), .stdZeroMinute, .lit (goStr ":"),
   .stdZeroSecond, .lit (goStr " "), .stdTZ, .stdNumTZ]

/-- One iteration of the loop of `Time.appendFormat`: the text a layout element
contributes, for the zone `z` and the absolute time `abs`. -/
def appendChunk (z : Zone) (abs : Nat) : Chunk → GoString
  | .lit s => s
  | .stdLongYear => appendInt (absDate abs).1 4
  | .stdZeroMonth => appendInt (absDate abs).2.1 2
  | .stdZeroDay => appendInt (absDate abs).2.2 2
  | .stdHour => appendInt (absClock abs).1 2
  | .stdZeroMinute => appendInt (absClock abs).2.1 2
  | .stdZeroSecond => appendInt (absClock abs).2.2 2
  | .stdTZ =>
    if z.name ≠ [] then z.name
    else
      let zone := z.offset.tdiv 60
      (if zone < 0 then [0x2D] else [0x2B]) ++
        appendInt ((if zone < 0 then -zone else zone).tdiv 60) 2 ++
        appendInt ((if zone < 0 then -zone else zone).tmod 60) 2
  | .stdNumTZ =>
    let zone := z.offset.tdiv 60
    (if zone < 0 then [0x2D] else [0x2B]) ++
      appendInt ((if zone < 0 then -zone else zone).tdiv 60) 2 ++
      appendInt ((if zone < 0 then -zone else zone).tmod 60) 2

/-- Method `Time.Format` for the instant `unixSec` seen in location `loc`
(`time.Now().In(loc).Format(layout)`), on a layout given by its elements. -/
def Format (loc : Location) (unixSec : Int) (layout : List Chunk) : GoString :=
  let z := loc.lookup unixSec
  layout.flatMap (appendChunk z (absSeconds unixSec z.offset))

/-! ## The tool handlers -/

/-- A value of type `any`; the handlers only store strings. -/
inductive GoAny where
  | nil
  | str (s : GoString)
deriving DecidableEq

/-- A `map[string]any` given by its entries; the keys of a map are distinct. -/
abbrev GoMap := List (GoString × GoAny)

/-- The pair `(map[string]any, error)` a handler returns; `none` is `nil`, an
error is given by its text. -/
abbrev HandlerResult := Option GoMap × Option GoString

/-- Struct `CityArgs`. -/
structure CityArgs where
  City : GoString

/-- What `getCurrentTime` reads from its surroundings: `time.LoadLocation`
(a location, or an error given by its text) and the instant `time.Now()` in
Unix seconds. -/
structure TimeEnv where
  LoadLocation : GoString → Except GoString Location
  Now : Int

/-- Function `getWeather`. `U` is the part of the Unicode tables `EqualFold`
may consult. `none` stands for a call to which the model gives no value: an
`EqualFold` that does not return, or a format outside the fragment of `Sprintf`. -/
def getWeather (U : Nat → Nat) (args : CityArgs) : Option HandlerResult := do
  if (← EqualFold U args.City (goStr "new york")) then
    pure (some [(goStr "status", .str (goStr "success")),
                (goStr "report", .str (goStr "The weather in New York is sunny with a temperature of 25 degrees Celsius (77 degrees Fahrenheit)."))],
          none)
  else
    let msg ← Sprintf (goStr "Weather information for '%s' is not available.") [args.City]
    pure (some [(goStr "status", .str (goStr "error")),
                (goStr "error_message", .str msg)],
          none)

/-- Function `getCurrentTime`. `env` holds the timezone database and the clock;
`U` and `none` are as for `getWeather`. -/
def getCurrentTime (U : Nat → Nat) (env : TimeEnv) (args : CityArgs) :
    Option HandlerResult := do
  if !(← EqualFold U args.City (goStr "new york")) then
    let msg ← Sprintf (goStr "Sorry, I don't have timezone information for %s.") [args.City]
    pure (some [(goStr "status", .str (goStr "error")),
                (goStr "error_message", .str msg)],
          none)
  else
    match env.LoadLocation (goStr "America/New_York") with
    | .error err =>
      let msg ← Sprintf (goStr "Failed to load timezone data for America/New_York: %v") [err]
      pure (some [(goStr "status", .str (goStr "error")),
                  (goStr "error_message", .str msg)],
            none)
    | .ok loc =>
      let now := env.Now
      let report ← Sprintf (goStr "The current time in %s is %s")
        [args.City, Format loc now layoutChunks]
      pure (some [(goStr "status", .str (goStr "success")), (goStr "report", .str report)],
            none)

/-! ## The agent assembly -/

/-- Struct `functiontool.Config`, the fields `main` sets. -/
structure ToolConfig where
  Name : GoString
  Description : GoString

/-- The type of a tool handler as `main` passes it to `functiontool.New`. -/
abbrev Handler := (Nat → Nat) → TimeEnv → CityArgs → Option HandlerResult

/-- Struct `llmagent.Config`, the fields `main` sets; the model handle and the
tools are values of the agent development kit. -/
structure AgentConfig (Model Tool : Type) where
  Name : GoString
  Model : Model
  Description : GoString
  Instruction : GoString
  Tools : List Tool

/-- The surroundings of `main`: the process environment and the constructors
of the agent development kit, each giving a value or an error text. -/
structure Kit (Model Tool Agent : Type) where
  Getenv : GoString → GoString
  NewModel : GoString → GoString → Except GoString Model
  functiontoolNew : ToolConfig → Handler → Except GoString Tool
  llmagentNew : AgentConfig Model Tool → Except GoString Agent
  Execute : Agent → List GoString → Except GoString Unit
  CommandLineSyntax : GoString

/-- A call `main` makes into its surroundings; `Fatalf` carries the format and
the operands and ends the process. -/
inductive Call (Model Tool Agent : Type) where
  | NewModel (modelName apiKey : GoString)
  | functiontoolNew (cfg : ToolConfig) (handler : Handler)
  | llmagentNew (cfg : AgentConfig Model Tool)
  | Execute (agent : Agent) (args : List GoString)
  | Fatalf (format : GoString) (operands : List GoString)

/-- Function `main`, as the sequence of calls it makes; `osArgs` is `os.Args`. -/
def main {Model Tool Agent : Type} (kit : Kit Model Tool Agent) (osArgs : List GoString) :
    List (Call Model Tool Agent) :=
  .NewModel (kit.Getenv (goStr "LLM_MODEL")) (kit.Getenv (goStr "GOOGLE_API_KEY")) ::
  match kit.NewModel (kit.Getenv (goStr "LLM_MODEL")) (kit.Getenv (goStr "GOOGLE_API_KEY")) with
  | .error err => [.Fatalf (goStr "Failed to create model: %v") [err]]
  | .ok model =>
    .functiontoolNew
      { Name := goStr "get_weather",
        Description := goStr "Retrieves the current weather report for a specified city." }
      (fun U _ args => getWeather U args) ::
    match kit.functiontoolNew
      { Name := goStr "get_weather",
        Description := goStr "Retrieves the current weather report for a specified city." }
      (fun U _ args => getWeather U args) with
    | .error err => [.Fatalf (goStr "Failed to create get_weather tool: %v") [err]]
    | .ok weatherTool =>
      .functiontoolNew
        { Name := goStr "get_current_time",
          Description := goStr "Returns the current time in a specified city." }
        getCurrentTime ::
      match kit.functiontoolNew
        { Name := goStr "get_current_time",
          Description := goStr "Returns the current time in a specified city." }
        getCurrentTime with
      | .error err => [.Fatalf (goStr "Failed to create get_current_time tool: %v") [err]]
      | .ok timeTool =>
        .llmagentNew
          { Name := goStr "weather_time_agent",
            Model := model,
            Description := goStr "Agent to answer questions about the time and weather in a city.",
            Instruction := goStr "You are a helpful agent who can answer user questions about the time and weather in a city.",
            Tools := [weatherTool, timeTool] } ::
        match kit.llmagentNew
          { Name := goStr "weather_time_agent",
            Model := model,
            Description := goStr "Agent to answer questions about the time and weather in a city.",
            Instruction := goStr "You are a helpful agent who can answer user questions about the time and weather in a city.",
            Tools := [weatherTool, timeTool] } with
        | .error err => [.Fatalf (goStr "Failed to create agent: %v") [err]]
        | .ok rootAgent =>
          .Execute rootAgent (osArgs.drop 1) ::
          match kit.Execute rootAgent (osArgs.drop 1) with
          | .error err => [.Fatalf (goStr "Run failed: %v\n\n%s") [err, kit.CommandLineSyntax]]
          | .ok _ => []

/-- Whether a call registers a tool or builds an agent. -/
def Call.isAssembly {Model Tool Agent : Type} : Call Model Tool Agent → Bool
  | .functiontoolNew _ _ => true
  | .llmagentNew _ => true
  | _ => false

/-! ## The result shapes of the specification -/

/-- The success shape: `status = "success"` with a `report`, and no error. -/
def successResult (report : GoString) : HandlerResult :=
  (some [(goStr "status", .str (goStr "success")), (goStr "report", .str report)], none)

/-- The error shape: `status = "error"` with an `error_message`, and no error
beside the map. -/
def errorResult (message : GoString) : HandlerResult :=
  (some [(goStr "status", .str (goStr "error")), (goStr "error_message", .str message)], none)

/-- The value a map holds under a key, if any. -/
def GoMap.get (m : GoMap) (key : GoString) : Option GoAny :=
  m.lookup key

/-- The keys of a map. -/
def GoMap.keys (m : GoMap) : List GoString :=
  m.map Prod.fst

/-- A map of the success shape: `status` is "success", `report` is a string,
and there is no other key. -/
def isSuccessShape (m : GoMap) : Prop :=
  m.get (goStr "status") = some (.str (goStr "success")) ∧
  (∃ report, m.get (goStr "report") = some (.str report)) ∧
  m.get (goStr "error_message") = none ∧
  ∀ k ∈ m.keys, k = goStr "status" ∨ k = goStr "report"

/-- A map of the error shape: `status` is "error", `error_message` is a string,
and there is no other key. -/
def isErrorShape (m : GoMap) : Prop :=
  m.get (goStr "status") = some (.str (goStr "error")) ∧
  (∃ message, m.get (goStr "error_message") = some (.str message)) ∧
  m.get (goStr "report") = none ∧
  ∀ k ∈ m.keys, k = goStr "status" ∨ k = goStr "error_message"

/-- The status a handler result carries in its map. -/
def statusOf (r : HandlerResult) : Option GoAny :=
  r.1.bind (fun m => m.get (goStr "status"))

/-- The fixed sentence of the weather report. -/
def weatherReport : GoString :=
  goStr "The weather in New York is sunny with a temperature of 25 degrees Celsius (77 degrees Fahrenheit)."

/-! ## Civil time and the timestamp of the specification -/

/-- A leap year of the proleptic Gregorian calendar. -/
def isLeapYear (y : Nat) : Prop :=
  y % 4 = 0 ∧ (y % 100 ≠ 0 ∨ y % 400 = 0)

instance (y : Nat) : Decidable (isLeapYear y) :=
  inferInstanceAs (Decidable (y % 4 = 0 ∧ (y % 100 ≠ 0 ∨ y % 400 = 0)))

/-- The number of days of year `y`. -/
def daysInYear (y : Nat) : Nat :=
  if isLeapYear y then 366 else 365

/-- The number of days of month `m` (January is 1) of year `y`. -/
def daysInMonth (y m : Nat) : Nat :=
  match m with
  | 1 => 31
  | 2 => if isLeapYear y then 29 else 28
  | 3 => 31
  | 4 => 30
  | 5 => 31
  | 6 => 30
  | 7 => 31
  | 8 => 31
  | 9 => 30
  | 10 => 31
  | 11 => 30
  | 12 => 31
  | _ => 0

/-- The days of the years 0000 to `y - 1`. -/
def daysBeforeYear (y : Nat) : Nat :=
  ((List.range y).map daysInYear).sum

/-- The days of the months of year `y` before month `m`. -/
def daysBeforeMonth (y m : Nat) : Nat :=
  ((List.range (m - 1)).map (fun i => daysInMonth y (i + 1))).sum

/-- A date and time of day on the calendar. -/
structure CivilTime where
  year : Nat
  month : Nat
  day : Nat
  hour : Nat
  minute : Nat
  second : Nat

/-- The fields of a civil time are in range: a month of the year, a day of that
month, and a time of day. -/
def CivilTime.isValid (ct : CivilTime) : Prop :=
  1 ≤ ct.month ∧ ct.month ≤ 12 ∧ 1 ≤ ct.day ∧ ct.day ≤ daysInMonth ct.year ct.month ∧
  ct.hour < 24 ∧ ct.minute < 60 ∧ ct.second < 60

/-- The seconds from 1970-01-01 00:00:00 to a civil time, counting the days of
the years and months between. -/
def CivilTime.secondsSinceEpoch (ct : CivilTime) : Int :=
  (((daysBeforeYear ct.year + daysBeforeMonth ct.year ct.month + (ct.day - 1) : Nat) : Int) -
      ((daysBeforeYear 1970 : Nat) : Int)) * 86400 +
    ((ct.hour * 3600 + ct.minute * 60 + ct.second : Nat) : Int)

/-- The civil time `ct` is the instant that lies `localSec` seconds after
1970-01-01 00:00:00 on the local calendar. -/
def isCivilTimeOf (localSec : Int) (ct : CivilTime) : Prop :=
  ct.isValid ∧ ct.secondsSinceEpoch = localSec

/-- Two decimal digits. -/
def pad2 (n : Nat) : GoString :=
  [0x30 + n / 10 % 10, 0x30 + n % 10]

/-- Four decimal digits. -/
def pad4 (n : Nat) : GoString :=
  [0x30 + n / 1000 % 10, 0x30 + n / 100 % 10, 0x30 + n / 10 % 10, 0x30 + n % 10]

/-- The timestamp `YYYY-MM-DD HH:MM:SS ZZZ±HHMM` of a civil time in the zone `z`:
the abbreviation of the zone, then the offset of the zone cut to whole minutes,
as its sign, two digits of hours and two digits of minutes. -/
def timestamp (ct : CivilTime) (z : Zone) : GoString :=
  pad4 ct.year ++ goStr "-" ++ pad2 ct.month ++ goStr "-" ++ pad2 ct.day ++ goStr " " ++
    pad2 ct.hour ++ goStr ":" ++ pad2 ct.minute ++ goStr ":" ++ pad2 ct.second ++ goStr " " ++
    z.name ++ (if z.offset.tdiv 60 < 0 then goStr "-" else goStr "+") ++
    pad2 ((z.offset.tdiv 60).natAbs / 60) ++ pad2 ((z.offset.tdiv 60).natAbs % 60)

/-! ## The two halves of `absDate` -/

/-- The first half of `absDate`: the years since the absolute zero year and the
day of the year. -/
def absYearDay (abs : Nat) : Nat × Nat :=
  let d := abs / 86400
  let n := d / 146097
  let y := 400 * n
  let d := d - 146097 * n
  let n := d / 36524
  let n := n - n / 4
  let y := y + 100 * n
  let d := d - 36524 * n
  let n := d / 1461
  let y := y + 4 * n
  let d := d - 1461 * n
  let n := d / 365
  let n := n - n / 4
  let y := y + n
  let d := d - 365 * n
  (y, d)

/-- The second half of `absDate`: month and day of the month from the day of
the year. -/
def monthDay (leap : Bool) (yday : Nat) : Nat × Nat :=
  if leap ∧ yday = 31 + 29 - 1 then (2, 29)
  else
    let day := if leap ∧ yday > 31 + 29 - 1 then yday - 1 else yday
    let month := day / 31
    let stop := daysBefore (month + 1)
    if day ≥ stop then (month + 2, day - stop + 1)
    else (month + 1, day - daysBefore month + 1)


/-! ## Case-insensitive equality with "new york", stated on runes -/

/-- Unicode simple case folding (CaseFolding.txt, statuses C and S) wherever the
rune or its image is ASCII: the capital letters go to the small ones, U+212A
(KELVIN SIGN) to `k`, U+017F (LONG S) to `s`. No other rune folds into ASCII,
so comparing a folded rune with an ASCII rune needs no more of the table. -/
def foldRune (r : Nat) : Nat :=
  if 0x41 ≤ r ∧ r ≤ 0x5A then r + 0x20
  else if r = 0x212A then 0x6B
  else if r = 0x17F then 0x73
  else r

/-- The city `c` equals "new york" under case-insensitive comparison: its runes,
case-folded one by one, are the runes of "new york" (which are its bytes, all
of them ASCII). -/
def isNewYork (c : GoString) : Prop :=
  (runes c).map foldRune = goStr "new york"

instance (c : GoString) : Decidable (isNewYork c) :=
  inferInstanceAs (Decidable ((runes c).map foldRune = goStr "new york"))

/-- The city `c` is "new york" with the case of some of its ASCII letters
changed: byte by byte, the small letter or its capital. -/
def isAsciiCaseVariant (c : GoString) : Prop :=
  List.Forall₂ (fun b x => b = x ∨ (0x61 ≤ x ∧ x ≤ 0x7A ∧ b + 0x20 = x)) c (goStr "new york")

instance (c : GoString) : Decidable (isAsciiCaseVariant c) :=
  inferInstanceAs (Decidable (List.Forall₂
    (fun b x => b = x ∨ (0x61 ≤ x ∧ x ≤ 0x7A ∧ b + 0x20 = x)) c (goStr "new york")))

/-- The bytes of "new york". -/
def nyByte (x : Nat) : Prop :=
  x = 110 ∨ x = 101 ∨ x = 119 ∨ x = 32 ∨ x = 121 ∨ x = 111 ∨ x = 114 ∨ x = 107

/-- The city "new yor" followed by U+212A KELVIN SIGN (bytes E2 84 AA). -/
def kelvinCity : GoString := goStr "new yor" ++ [0xE2, 0x84, 0xAA]

/-! ## Sample surroundings -/

/-- The zones of America/New_York during 2024: daylight time from 2024-03-10
07:00 UTC to 2024-11-03 06:00 UTC, standard time otherwise. -/
def newYork2024 : Location :=
  ⟨fun t => if 1710054000 ≤ t ∧ t < 1730613600 then ⟨goStr "EDT", -14400⟩
            else ⟨goStr "EST", -18000⟩⟩

/-- The timezone database holds New York; the clock reads 2024-01-15T12:00:00Z. -/
def winterEnv : TimeEnv := ⟨fun _ => .ok newYork2024, 1705320000⟩

/-- The timezone database holds New York; the clock reads 2024-07-15T12:00:00Z. -/
def summerEnv : TimeEnv := ⟨fun _ => .ok newYork2024, 1721044800⟩

/-- The timezone database gives New York a zone without an abbreviation; the
clock reads 2024-01-15T12:00:00Z. -/
def noAbbreviationEnv : TimeEnv := ⟨fun _ => .ok ⟨fun _ => ⟨[], -18000⟩⟩, 1705320000⟩

/-- Eastern Standard Time at 10000-01-01 00:00:00 local time. -/
def year10000Env : TimeEnv := ⟨fun _ => .ok ⟨fun _ => ⟨goStr "EST", -18000⟩⟩, 253402318800⟩

/-- The timezone database gives New York a zone 100 hours east of UTC; the
clock reads 2024-01-15T12:00:00Z. -/
def hundredHoursEnv : TimeEnv := ⟨fun _ => .ok ⟨fun _ => ⟨goStr "XXX", 360000⟩⟩, 1705320000⟩

/-- The timezone database is missing. -/
def noZoneEnv : TimeEnv := ⟨fun _ => .error (goStr "unknown time zone America/New_York"), 0⟩

/-- A kit whose constructors all succeed and return what they were given. -/
def freeKit : Kit (GoString × GoString) (ToolConfig × Handler)
    (AgentConfig (GoString × GoString) (ToolConfig × Handler)) where
  Getenv := fun name => name
  NewModel := fun name key => .ok (name, key)
  functiontoolNew := fun cfg h => .ok (cfg, h)
  llmagentNew := fun cfg => .ok cfg
  Execute := fun _ _ => .ok ()
  CommandLineSyntax := []

/-! ## Lemmas on the library model -/

theorem goStr_newYork : goStr "new york" = [110, 101, 119, 32, 121, 111, 114, 107] := by
  decide

theorem lor_lt_iff (a b : Nat) : a ||| b < 128 ↔ a < 128 ∧ b < 128 := by
  constructor
  · intro h
    have key : ∀ i, i ≥ 7 → (a ||| b).testBit i = false := by
      intro i hi
      apply Nat.testBit_lt_two_pow
      calc a ||| b < 2 ^ 7 := h
        _ ≤ 2 ^ i := Nat.pow_le_pow_right (by decide) hi
    constructor
    · apply Nat.lt_pow_two_of_testBit (n := 7)
      intro i hi
      have := key i hi
      rw [Nat.testBit_or] at this
      cases hb : a.testBit i <;> simp_all
    · apply Nat.lt_pow_two_of_testBit (n := 7)
      intro i hi
      have := key i hi
      rw [Nat.testBit_or] at this
      cases hb : b.testBit i <;> simp_all
  · rintro ⟨ha, hb⟩
    exact Nat.or_lt_two_pow (n := 7) ha hb

theorem runes_cons_ascii (b : Nat) (s : GoString) (h : b < 128) :
    runes (b :: s) = b :: runes s := by
  simp [runes, rangeRunes, DecodeRuneInString, first, h]

theorem runes_cons_ne_nil (b : Nat) (s : GoString) : runes (b :: s) ≠ [] := by
  simp [runes, rangeRunes]

theorem foldFuel_eq : foldFuel = 1114110 + 1 + 1 + 1 := by decide

theorem foldWalk_succ (U : Nat → Nat) (sr tr fuel r : Nat) :
    foldWalk U sr tr (fuel + 1) r =
      if r ≠ sr ∧ r < tr then foldWalk U sr tr fuel (SimpleFold U r) else some r := rfl

/-- The orbit walk from a letter whose orbit is the letter and its capital. -/
theorem foldWalk_pair (U : Nat → Nat) (x X hi : Nat) (h1 : SimpleFold U x = X)
    (h2 : SimpleFold U X = x) (hX : X ≠ x) (hhi : X < hi) :
    foldWalk U x hi foldFuel (SimpleFold U x) = some x := by
  rw [foldFuel_eq, h1, foldWalk_succ, if_pos ⟨hX, hhi⟩, h2, foldWalk_succ, if_neg (by simp)]

/-- The orbit walk from a rune that is alone in its orbit. -/
theorem foldWalk_fixed (U : Nat → Nat) (x hi : Nat) (h1 : SimpleFold U x = x) :
    foldWalk U x hi foldFuel (SimpleFold U x) = some x := by
  rw [foldFuel_eq, h1, foldWalk_succ, if_neg (by simp)]

/-- The orbit walk from `k`: `k`, KELVIN SIGN, `K`. -/
theorem foldWalk_k (U : Nat → Nat) (hi : Nat) (hhi : 128 ≤ hi) :
    foldWalk U 107 hi foldFuel (SimpleFold U 107) =
      some (if hi ≤ 0x212A then 0x212A else 107) := by
  have h1 : SimpleFold U 107 = 0x212A := rfl
  have h2 : SimpleFold U 0x212A = 75 := rfl
  have h3 : SimpleFold U 75 = 107 := rfl
  rw [foldFuel_eq, h1, foldWalk_succ]
  by_cases h : hi ≤ 0x212A
  · rw [if_neg (by omega), if_pos h]
  · rw [if_pos ⟨by decide, by omega⟩, h2, foldWalk_succ, if_pos ⟨by decide, by omega⟩, h3,
      foldWalk_succ, if_neg (by simp), if_neg h]

/-- The orbit walk of `EqualFold` from a byte of "new york" against a rune
outside ASCII stops, at KELVIN SIGN when that is the rune met and at the byte
itself otherwise. -/
theorem foldWalk_nyByte (U : Nat → Nat) (x hi : Nat) (hx : nyByte x) (hhi : 128 ≤ hi) :
    foldWalk U x hi foldFuel (SimpleFold U x) =
      some (if x = 107 ∧ hi ≤ 0x212A then 0x212A else x) := by
  rcases hx with h | h | h | h | h | h | h | h <;> subst h
  · rw [foldWalk_pair U 110 78 hi rfl rfl (by decide) (by omega), if_neg (by omega)]
  · rw [foldWalk_pair U 101 69 hi rfl rfl (by decide) (by omega), if_neg (by omega)]
  · rw [foldWalk_pair U 119 87 hi rfl rfl (by decide) (by omega), if_neg (by omega)]
  · rw [foldWalk_fixed U 32 hi rfl, if_neg (by omega)]
  · rw [foldWalk_pair U 121 89 hi rfl rfl (by decide) (by omega), if_neg (by omega)]
  · rw [foldWalk_pair U 111 79 hi rfl rfl (by decide) (by omega), if_neg (by omega)]
  · rw [foldWalk_pair U 114 82 hi rfl rfl (by decide) (by omega), if_neg (by omega)]
  · rw [foldWalk_k U hi hhi]
    by_cases h : hi ≤ 0x212A
    · rw [if_pos h, if_pos ⟨rfl, h⟩]
    · rw [if_neg h, if_neg (by omega)]

/-- A rune matches a byte of "new york" in the ASCII test of `EqualFold` exactly
when it folds to it. -/
theorem ascii_match_iff (sr x : Nat) (hx : nyByte x) (hsr : sr < 128) (hne : ¬ x = sr) :
    (0x41 ≤ (if x < sr then x else sr) ∧ (if x < sr then x else sr) ≤ 0x5A ∧
      (if x < sr then sr else x) = (if x < sr then x else sr) + 0x61 - 0x41) ↔
    foldRune sr = x := by
  unfold foldRune nyByte at *
  split_ifs <;> omega

/-- One iteration of the `hasUnicode` loop against a byte of "new york". -/
theorem unicodeLoop_step (U : Nat → Nat) (sr : Nat) (srs : List Nat) (x : Nat)
    (t : GoString) (hx : nyByte x) :
    unicodeLoop U (sr :: srs) (x :: t) =
      if foldRune sr = x then unicodeLoop U srs t else some false := by
  have hx128 : x < 128 := by unfold nyByte at hx; omega
  rw [unicodeLoop]
  simp only [List.length_cons, List.headD_cons, RuneSelf, hx128, if_true, List.drop_succ_cons,
    List.drop_zero, Nat.succ_ne_zero, if_false]
  by_cases hne : x = sr
  · subst hne
    have : foldRune x = x := by unfold foldRune nyByte at *; split_ifs <;> omega
    rw [if_pos rfl, if_pos this]
  · rw [if_neg hne]
    by_cases hsr : sr < 128
    · have hhi : (if x < sr then sr else x) < 128 := by split_ifs <;> omega
      rw [if_pos hhi]
      by_cases hm : foldRune sr = x
      · rw [if_pos ((ascii_match_iff sr x hx hsr hne).mpr hm), if_pos hm]
      · rw [if_neg (fun h => hm ((ascii_match_iff sr x hx hsr hne).mp h)), if_neg hm]
    · have hlt : x < sr := by omega
      simp only [hlt, if_true]
      rw [if_neg (by omega), foldWalk_nyByte U x sr hx (by omega)]
      have hf : foldRune sr = x ↔ (x = 107 ∧ sr = 0x212A) := by
        unfold foldRune nyByte at *; split_ifs <;> omega
      by_cases hk : x = 107 ∧ sr = 0x212A
      · obtain ⟨rfl, rfl⟩ := hk
        simp [foldRune]
      · have hr : ¬ (if x = 107 ∧ sr ≤ 0x212A then 0x212A else x) = sr := by
          split_ifs <;> omega
        simp only [hr, if_false]
        rw [if_neg (fun h => hk (hf.mp h))]

/-- The `hasUnicode` loop against a tail of "new york" returns, and tells
whether the runes fold to that tail. -/
theorem unicodeLoop_nyBytes (U : Nat → Nat) (srs : List Nat) :
    ∀ t : GoString, (∀ x ∈ t, nyByte x) →
      unicodeLoop U srs t = some (decide (srs.map foldRune = t)) := by
  induction srs with
  | nil =>
    intro t _
    cases t <;> simp [unicodeLoop]
  | cons sr srs ih =>
    intro t ht
    cases t with
    | nil => simp [unicodeLoop]
    | cons x t =>
      rw [unicodeLoop_step U sr srs x t (ht x (List.mem_cons_self x t)),
        ih t (fun y hy => ht y (List.mem_cons_of_mem x hy))]
      by_cases h : foldRune sr = x <;> simp [h]

/-- The ASCII fast path against a tail of "new york" returns, and tells whether
the runes of the string fold to that tail. -/
theorem asciiLoop_nyBytes (U : Nat → Nat) (s : GoString) :
    ∀ t : GoString, (∀ x ∈ t, nyByte x) →
      asciiLoop U s t = some (decide ((runes s).map foldRune = t)) := by
  induction s with
  | nil =>
    intro t _
    cases t <;> simp [asciiLoop, runes, rangeRunes]
  | cons b s ih =>
    intro t ht
    cases t with
    | nil =>
      have := runes_cons_ne_nil b s
      simp [asciiLoop, this]
    | cons x t =>
      have hx : nyByte x := ht x (List.mem_cons_self x t)
      have hx128 : x < 128 := by unfold nyByte at hx; omega
      rw [asciiLoop]
      by_cases hb : b < 128
      · have hor : ¬ (b ||| x ≥ RuneSelf) := by
          have := (lor_lt_iff b x).mpr ⟨hb, hx128⟩
          unfold RuneSelf; omega
        rw [if_neg hor, runes_cons_ascii b s hb, ih t (fun y hy => ht y (List.mem_cons_of_mem x hy))]
        by_cases hne : x = b
        · subst hne
          have : foldRune x = x := by unfold foldRune nyByte at *; split_ifs <;> omega
          simp [this]
        · rw [if_neg hne]
          by_cases hm : foldRune b = x
          · rw [if_pos ((ascii_match_iff b x hx hb hne).mpr hm)]
            simp [hm]
          · rw [if_neg (fun h => hm ((ascii_match_iff b x hx hb hne).mp h))]
            simp [hm]
      · have hor : b ||| x ≥ RuneSelf := by
          by_contra hcon
          have : b ||| x < 128 := by unfold RuneSelf at hcon; omega
          exact hb ((lor_lt_iff b x).mp this).1
        rw [if_pos hor]
        exact unicodeLoop_nyBytes U (runes (b :: s)) (x :: t) ht

/-- Function `EqualFold` against "new york" returns, and returns `true` exactly
for the strings whose runes fold to "new york". -/
theorem EqualFold_newYork (U : Nat → Nat) (c : GoString) :
    EqualFold U c (goStr "new york") = some (decide (isNewYork c)) := by
  have hny : ∀ x ∈ goStr "new york", nyByte x := by
    rw [goStr_newYork]
    intro x hx
    unfold nyByte
    simp at hx
    omega
  exact asciiLoop_nyBytes U c (goStr "new york") hny


/-! ## Lemmas on the handlers -/

theorem Sprintf_weather (c : GoString) :
    Sprintf (goStr "Weather information for '%s' is not available.") [c] =
      some (goStr "Weather information for '" ++ c ++ goStr "' is not available.") := by
  rfl

theorem Sprintf_noZone (c : GoString) :
    Sprintf (goStr "Sorry, I don't have timezone information for %s.") [c] =
      some (goStr "Sorry, I don't have timezone information for " ++ c ++ goStr ".") := by
  rfl

theorem Sprintf_loadFailed (e : GoString) :
    Sprintf (goStr "Failed to load timezone data for America/New_York: %v") [e] =
      some (goStr "Failed to load timezone data for America/New_York: " ++ e) := by
  have h : Sprintf (goStr "Failed to load timezone data for America/New_York: %v") [e] =
      some (goStr "Failed to load timezone data for America/New_York: " ++ (e ++ [])) := rfl
  rw [h, List.append_nil]

theorem Sprintf_currentTime (c ts : GoString) :
    Sprintf (goStr "The current time in %s is %s") [c, ts] =
      some (goStr "The current time in " ++ c ++ goStr " is " ++ ts) := by
  have h : Sprintf (goStr "The current time in %s is %s") [c, ts] =
      some (goStr "The current time in " ++ (c ++ (goStr " is " ++ (ts ++ [])))) := rfl
  rw [h, List.append_nil, List.append_assoc, List.append_assoc]

theorem getWeather_newYork (U : Nat → Nat) (c : GoString) (h : isNewYork c) :
    getWeather U ⟨c⟩ = some (successResult weatherReport) := by
  simp [getWeather, EqualFold_newYork, h, successResult, weatherReport]

theorem getWeather_other (U : Nat → Nat) (c : GoString) (h : ¬ isNewYork c) :
    getWeather U ⟨c⟩ =
      some (errorResult
        (goStr "Weather information for '" ++ c ++ goStr "' is not available.")) := by
  simp [getWeather, EqualFold_newYork, h, Sprintf_weather, errorResult]

theorem getCurrentTime_other (U : Nat → Nat) (env : TimeEnv) (c : GoString)
    (h : ¬ isNewYork c) :
    getCurrentTime U env ⟨c⟩ =
      some (errorResult
        (goStr "Sorry, I don't have timezone information for " ++ c ++ goStr ".")) := by
  simp [getCurrentTime, EqualFold_newYork, h, Sprintf_noZone, errorResult]

theorem getCurrentTime_loadFailed (U : Nat → Nat) (env : TimeEnv) (c e : GoString)
    (h : isNewYork c) (he : env.LoadLocation (goStr "America/New_York") = .error e) :
    getCurrentTime U env ⟨c⟩ =
      some (errorResult (goStr "Failed to load timezone data for America/New_York: " ++ e)) := by
  simp [getCurrentTime, EqualFold_newYork, h, he, Sprintf_loadFailed, errorResult]

theorem getCurrentTime_loaded (U : Nat → Nat) (env : TimeEnv) (c : GoString) (loc : Location)
    (h : isNewYork c) (hl : env.LoadLocation (goStr "America/New_York") = .ok loc) :
    getCurrentTime U env ⟨c⟩ =
      some (successResult
        (goStr "The current time in " ++ c ++ goStr " is " ++ Format loc env.Now layoutChunks)) := by
  simp [getCurrentTime, EqualFold_newYork, h, hl, Sprintf_currentTime, successResult]

theorem runes_nil : runes [] = [] := rfl

/-- An ASCII case variant of "new york" folds to "new york". -/
theorem isNewYork_of_variant_aux (c t : GoString)
    (h : List.Forall₂ (fun b x => b = x ∨ (0x61 ≤ x ∧ x ≤ 0x7A ∧ b + 0x20 = x)) c t) :
    (∀ x ∈ t, nyByte x) → (runes c).map foldRune = t := by
  induction h with
  | nil => intro _; rfl
  | @cons b x c t hbx _ ih =>
    intro ht
    have hx : nyByte x := ht x (List.mem_cons_self x t)
    have hb : b < 128 := by unfold nyByte at hx; omega
    have hf : foldRune b = x := by unfold foldRune nyByte at *; split_ifs <;> omega
    rw [runes_cons_ascii b c hb, List.map_cons, hf,
      ih (fun y hy => ht y (List.mem_cons_of_mem x hy))]

theorem nyByte_of_mem : ∀ x ∈ goStr "new york", nyByte x := by
  rw [goStr_newYork]
  intro x hx
  unfold nyByte
  simp at hx
  omega

theorem isNewYork_of_variant (c : GoString) (h : isAsciiCaseVariant c) : isNewYork c :=
  isNewYork_of_variant_aux c (goStr "new york") h nyByte_of_mem

theorem successShape_successResult (report : GoString) :
    isSuccessShape [(goStr "status", .str (goStr "success")), (goStr "report", .str report)] := by
  refine ⟨rfl, ⟨report, rfl⟩, rfl, ?_⟩
  intro k hk
  simpa [GoMap.keys] using hk

theorem errorShape_errorResult (message : GoString) :
    isErrorShape
      [(goStr "status", .str (goStr "error")), (goStr "error_message", .str message)] := by
  refine ⟨rfl, ⟨message, rfl⟩, rfl, ?_⟩
  intro k hk
  simpa [GoMap.keys] using hk

theorem shapes_exclusive (m : GoMap) (hs : isSuccessShape m) (he : isErrorShape m) : False := by
  have h1 := hs.1
  rw [he.1] at h1
  have : goStr "error" = goStr "success" := by
    injection h1 with h2
    injection h2
  exact absurd this (by decide)

theorem shape_keys (m : GoMap) (h : isSuccessShape m ∨ isErrorShape m) :
    ¬ (goStr "report" ∈ m.keys ∧ goStr "error_message" ∈ m.keys) := by
  rintro ⟨hr, he⟩
  rcases h with h | h
  · rcases h.2.2.2 _ he with h1 | h1 <;> exact absurd h1 (by decide)
  · rcases h.2.2.2 _ hr with h1 | h1 <;> exact absurd h1 (by decide)

theorem statusOf_successResult (report : GoString) :
    statusOf (successResult report) = some (.str (goStr "success")) := rfl

theorem statusOf_errorResult (message : GoString) :
    statusOf (errorResult message) = some (.str (goStr "error")) := rfl

theorem error_ne_success : (GoAny.str (goStr "error")) ≠ GoAny.str (goStr "success") := by
  decide

/-- The timestamp `Format` prints for the layout of `getCurrentTime` depends on
the location only through the zone in effect at the instant. -/
theorem Format_of_lookup (loc : Location) (t : Int) (z : Zone) (h : loc.lookup t = z) :
    Format loc t layoutChunks = Format ⟨fun _ => z⟩ t layoutChunks := by
  simp [Format, h]

theorem abs_eq_natAbs (zone : Int) : (if zone < 0 then -zone else zone) = (zone.natAbs : Int) := by
  split_ifs <;> omega

/-- Method `Format` on the layout of `getCurrentTime`, field by field, for a
zone that has an abbreviation. -/
theorem Format_fields (loc : Location) (t : Int) (h : (loc.lookup t).name ≠ []) :
    Format loc t layoutChunks =
      appendInt (absDate (absSeconds t (loc.lookup t).offset)).1 4 ++ (goStr "-" ++
      (appendInt ((absDate (absSeconds t (loc.lookup t).offset)).2.1 : Nat) 2 ++ (goStr "-" ++
      (appendInt ((absDate (absSeconds t (loc.lookup t).offset)).2.2 : Nat) 2 ++ (goStr " " ++
      (appendInt ((absClock (absSeconds t (loc.lookup t).offset)).1 : Nat) 2 ++ (goStr ":" ++
      (appendInt ((absClock (absSeconds t (loc.lookup t).offset)).2.1 : Nat) 2 ++ (goStr ":" ++
      (appendInt ((absClock (absSeconds t (loc.lookup t).offset)).2.2 : Nat) 2 ++ (goStr " " ++
      ((loc.lookup t).name ++
      ((if (loc.lookup t).offset.tdiv 60 < 0 then goStr "-" else goStr "+") ++
      (appendInt ((((loc.lookup t).offset.tdiv 60).natAbs / 60 : Nat) : Int) 2 ++
       appendInt ((((loc.lookup t).offset.tdiv 60).natAbs % 60 : Nat) : Int) 2)))))))))))))) := by
  have hd : ∀ zone : Int, (if zone < 0 then -zone else zone).tdiv 60
      = ((zone.natAbs / 60 : Nat) : Int) := by
    intro zone
    rw [abs_eq_natAbs]
    exact (Int.ofNat_tdiv zone.natAbs 60).symm
  have hm : ∀ zone : Int, (if zone < 0 then -zone else zone).tmod 60
      = ((zone.natAbs % 60 : Nat) : Int) := by
    intro zone
    rw [abs_eq_natAbs]
    exact (Int.ofNat_tmod zone.natAbs 60).symm
  have hs : ∀ zone : Int, (if zone < 0 then [0x2D] else [0x2B])
      = (if zone < 0 then goStr "-" else goStr "+") := by
    intro zone
    split_ifs <;> rfl
  simp only [Format, layoutChunks, List.flatMap_cons, List.flatMap_nil, appendChunk,
    h, if_true, ne_eq, not_false_eq_true, hd, hm, hs, List.append_nil,
    List.append_assoc]

/-! ## The calendar of `absDate` -/

theorem absDate_eq (abs : Nat) :
    absDate abs =
      (((absYearDay abs).1 : Int) + absoluteZeroYear,
        monthDay (isLeap (((absYearDay abs).1 : Int) + absoluteZeroYear)) (absYearDay abs).2) := by
  unfold absDate absYearDay monthDay
  simp only []
  split_ifs <;> rfl

theorem cycles (d0 n1 d1 n2 d2 n3 d3 n4 d4 Y : Nat)
    (h1 : n1 = d0 / 146097) (h2 : d1 = d0 - 146097 * n1)
    (h3 : n2 = d1 / 36524 - d1 / 36524 / 4) (h4 : d2 = d1 - 36524 * n2)
    (h5 : n3 = d2 / 1461) (h6 : d3 = d2 - 1461 * n3)
    (h7 : n4 = d3 / 365 - d3 / 365 / 4) (h8 : d4 = d3 - 365 * n4)
    (h9 : Y = 400 * n1 + 100 * n2 + 4 * n3 + n4) :
    d0 + Y / 100 = 365 * Y + Y / 4 + Y / 400 + d4 ∧ d4 ≤ 365 ∧
    (d4 = 365 → (Y + 1) % 4 = 0 ∧ ((Y + 1) % 100 ≠ 0 ∨ (Y + 1) % 400 = 0)) := by
  have b1 : d1 < 146097 ∧ d0 = 146097 * n1 + d1 := by omega
  have b2 : n2 ≤ 3 ∧ d2 ≤ 36524 ∧ d1 = 36524 * n2 + d2 ∧ (d2 = 36524 → n2 = 3) := by omega
  have b3 : n3 ≤ 24 ∧ d3 ≤ 1460 ∧ d2 = 1461 * n3 + d3 ∧ (n3 = 24 → d3 = 1460 → d2 = 36524) := by
    omega
  have b4 : n4 ≤ 3 ∧ d4 ≤ 365 ∧ d3 = 365 * n4 + d4 ∧ (d4 = 365 → n4 = 3 ∧ d3 = 1460) := by omega
  have q4 : Y / 4 = 100 * n1 + 25 * n2 + n3 := by omega
  have q100 : Y / 100 = 4 * n1 + n2 := by omega
  have q400 : Y / 400 = n1 := by omega
  refine ⟨by omega, by omega, ?_⟩
  intro h
  have := b4.2.2.2 h
  refine ⟨by omega, ?_⟩
  by_cases hc : (Y + 1) % 100 = 0
  · right
    have hn3 : n3 = 24 := by omega
    have hd2 := b3.2.2.2 hn3 this.2
    have hn2 := b2.2.2.2 hd2
    omega
  · left; exact hc

/-- The years since the absolute zero year and the day of the year that
`absDate` computes count the days exactly. -/
theorem absYearDay_spec (abs : Nat) :
    abs / 86400 + (absYearDay abs).1 / 100 =
      365 * (absYearDay abs).1 + (absYearDay abs).1 / 4 + (absYearDay abs).1 / 400 +
        (absYearDay abs).2 ∧
    (absYearDay abs).2 ≤ 365 ∧
    ((absYearDay abs).2 = 365 → ((absYearDay abs).1 + 1) % 4 = 0 ∧
      (((absYearDay abs).1 + 1) % 100 ≠ 0 ∨ ((absYearDay abs).1 + 1) % 400 = 0)) :=
  cycles (abs / 86400) _ _ _ _ _ _ _ _ _ rfl rfl rfl rfl rfl rfl rfl rfl rfl

theorem daysBeforeYear_succ (y : Nat) :
    daysBeforeYear (y + 1) = daysBeforeYear y + daysInYear y := by
  simp [daysBeforeYear, List.range_succ]

theorem daysBeforeYear_closed (y : Nat) :
    daysBeforeYear y + (y + 99) / 100 = 365 * y + (y + 3) / 4 + (y + 399) / 400 := by
  induction y with
  | zero => rfl
  | succ y ih =>
    rw [daysBeforeYear_succ]
    unfold daysInYear isLeapYear
    split_ifs <;> omega

theorem daysBeforeYear_1970 : daysBeforeYear 1970 = 719528 := by
  have := daysBeforeYear_closed 1970
  omega

theorem isLeap_natCast (y : Nat) : isLeap (y : Int) = true ↔ isLeapYear y := by
  unfold isLeap isLeapYear
  rw [Int.tmod_eq_emod (by omega) (by omega), Int.tmod_eq_emod (by omega) (by omega),
    Int.tmod_eq_emod (by omega) (by omega)]
  simp only [decide_eq_true_eq]
  omega

theorem daysBefore_val :
    daysBefore 0 = 0 ∧ daysBefore 1 = 31 ∧ daysBefore 2 = 59 ∧ daysBefore 3 = 90 ∧
    daysBefore 4 = 120 ∧ daysBefore 5 = 151 ∧ daysBefore 6 = 181 ∧ daysBefore 7 = 212 ∧
    daysBefore 8 = 243 ∧ daysBefore 9 = 273 ∧ daysBefore 10 = 304 ∧ daysBefore 11 = 334 ∧
    daysBefore 12 = 365 := by
  decide

theorem daysBeforeMonth_val (y : Nat) :
    daysBeforeMonth y 1 = 0 ∧ daysBeforeMonth y 2 = 31 ∧
    daysBeforeMonth y 3 = 31 + daysInMonth y 2 ∧ daysBeforeMonth y 4 = 62 + daysInMonth y 2 ∧
    daysBeforeMonth y 5 = 92 + daysInMonth y 2 ∧ daysBeforeMonth y 6 = 123 + daysInMonth y 2 ∧
    daysBeforeMonth y 7 = 153 + daysInMonth y 2 ∧ daysBeforeMonth y 8 = 184 + daysInMonth y 2 ∧
    daysBeforeMonth y 9 = 215 + daysInMonth y 2 ∧ daysBeforeMonth y 10 = 245 + daysInMonth y 2 ∧
    daysBeforeMonth y 11 = 276 + daysInMonth y 2 ∧
    daysBeforeMonth y 12 = 306 + daysInMonth y 2 := by
  simp only [daysBeforeMonth, Nat.reduceSub, List.range_succ, List.range_zero, List.map_append,
    List.map_cons, List.map_nil, List.sum_append, List.sum_cons, List.sum_nil, List.nil_append,
    daysInMonth, Nat.reduceAdd, Nat.zero_add, Nat.add_zero]
  split_ifs <;> decide

/-- Month and day of the month, as `absDate` derives them from the day of the
year, are a valid date that lies that many days into the year. -/
theorem monthDay_spec (y : Nat) (leap : Bool) (hl : leap = true ↔ isLeapYear y) (yday : Nat)
    (h : yday < 365 ∨ (yday = 365 ∧ isLeapYear y)) :
    1 ≤ (monthDay leap yday).1 ∧ (monthDay leap yday).1 ≤ 12 ∧
    1 ≤ (monthDay leap yday).2 ∧
    (monthDay leap yday).2 ≤ daysInMonth y (monthDay leap yday).1 ∧
    daysBeforeMonth y (monthDay leap yday).1 + ((monthDay leap yday).2 - 1) = yday := by
  obtain ⟨v1, v2, v3, v4, v5, v6, v7, v8, v9, v10, v11, v12, v13⟩ := daysBefore_val
  obtain ⟨w1, w2, w3, w4, w5, w6, w7, w8, w9, w10, w11, w12⟩ := daysBeforeMonth_val y
  have hfeb : daysInMonth y 2 = if isLeapYear y then 29 else 28 := rfl
  unfold monthDay
  by_cases hleap : isLeapYear y
  · have hlt : leap = true := hl.mpr hleap
    rw [if_pos hleap] at hfeb
    subst hlt
    simp only [true_and]
    by_cases h59 : yday = 31 + 29 - 1
    · rw [if_pos h59]
      simp only [w2]
      omega
    · rw [if_neg h59]
      generalize hday : (if yday > 31 + 29 - 1 then yday - 1 else yday) = day
      have hd : day ≤ 364 ∧ (yday < 59 → day = yday) ∧ (59 < yday → day + 1 = yday) := by
        split_ifs at hday <;> omega
      generalize hq : day / 31 = q
      have hq12 : q ≤ 11 := by omega
      interval_cases q <;>
        simp only [v1, v2, v3, v4, v5, v6, v7, v8, v9, v10, v11, v12, v13] <;>
        split_ifs <;>
        simp only [w1, w2, w3, w4, w5, w6, w7, w8, w9, w10, w11, w12, daysInMonth, hfeb,
          if_pos hleap] <;>
        omega
  · have hlt : leap = false := by
      cases leap
      · rfl
      · exact absurd (hl.mp rfl) hleap
    rw [if_neg hleap] at hfeb
    subst hlt
    simp only [Bool.false_eq_true, false_and, if_false]
    generalize hq : yday / 31 = q
    have hy : yday < 365 := by
      rcases h with h | h
      · exact h
      · exact absurd h.2 hleap
    have hq12 : q ≤ 11 := by omega
    interval_cases q <;>
      simp only [v1, v2, v3, v4, v5, v6, v7, v8, v9, v10, v11, v12, v13] <;>
      split_ifs <;>
      simp only [w1, w2, w3, w4, w5, w6, w7, w8, w9, w10, w11, w12, daysInMonth, hfeb,
        if_neg hleap] <;>
      omega

theorem absClock_spec (abs : Nat) :
    (absClock abs).1 < 24 ∧ (absClock abs).2.1 < 60 ∧ (absClock abs).2.2 < 60 ∧
    (absClock abs).1 * 3600 + (absClock abs).2.1 * 60 + (absClock abs).2.2 = abs % 86400 := by
  unfold absClock
  simp only []
  omega

/-- Function `absDate` gives the calendar date: for an absolute time in the years
0000 to 9999, its year, month and day are a valid date that lies as many days
after 0000-01-01 as the absolute time does. -/
theorem absDate_civil (A : Nat) (hlo : 9223371966548102400 ≤ A)
    (hhi : A < 9223372282117622400) :
    ∃ y m d : Nat, absDate A = ((y : Int), m, d) ∧ y ≤ 9999 ∧ 1 ≤ m ∧ m ≤ 12 ∧ 1 ≤ d ∧
      d ≤ daysInMonth y m ∧
      daysBeforeYear y + daysBeforeMonth y m + (d - 1) + 106751990353566 = A / 86400 := by
  obtain ⟨hE, hyd, hleapY⟩ := absYearDay_spec A
  have hA := absDate_eq A
  generalize (absYearDay A).1 = Y at hE hleapY hA
  generalize (absYearDay A).2 = yd at hE hyd hleapY hA
  have hd0 : 106751990353566 ≤ A / 86400 ∧ A / 86400 < 106751994005991 := by omega
  generalize A / 86400 = d0 at hE hd0
  have hq100 : Y / 100 = 4 * (Y / 400) + Y % 400 / 100 := by omega
  have hq4 : Y / 4 = 100 * (Y / 400) + Y % 400 / 4 := by omega
  have hr : Y % 400 < 400 := by omega
  have ha : 730692555 ≤ Y / 400 ∧ Y / 400 ≤ 730692580 := by omega
  have hY : 292277022399 ≤ Y ∧ Y ≤ 292277032398 := by omega
  obtain ⟨y, rfl⟩ : ∃ y, Y = y + 292277022399 := ⟨Y - 292277022399, by omega⟩
  have hy : y ≤ 9999 := by omega
  have hyear : ((y + 292277022399 : Nat) : Int) + absoluteZeroYear = (y : Int) := by
    unfold absoluteZeroYear
    omega
  rw [hyear] at hA
  have hclosed := daysBeforeYear_closed y
  have hleap : yd < 365 ∨ (yd = 365 ∧ isLeapYear y) := by
    rcases Nat.lt_or_ge yd 365 with h | h
    · exact Or.inl h
    · have h365 : yd = 365 := by omega
      have := hleapY h365
      refine Or.inr ⟨h365, ?_⟩
      unfold isLeapYear
      omega
  have hmd := monthDay_spec y (isLeap (y : Int)) (isLeap_natCast y) yd hleap
  refine ⟨y, (monthDay (isLeap (y : Int)) yd).1, (monthDay (isLeap (y : Int)) yd).2, hA, hy,
    hmd.1, hmd.2.1, hmd.2.2.1, hmd.2.2.2.1, ?_⟩
  have := hmd.2.2.2.2
  have k4 : (y + 292277022399) / 4 = (y + 3) / 4 + 73069255599 := by omega
  have k100 : (y + 292277022399) / 100 = (y + 99) / 100 + 2922770223 := by omega
  have k400 : (y + 292277022399) / 400 = (y + 399) / 400 + 730692555 := by omega
  omega

/-! ## Decimal digits -/

theorem digitChar_toNat (d : Nat) (h : d < 10) : (Nat.digitChar d).toNat = 0x30 + d := by
  interval_cases d <;> rfl

theorem toDigitsCore_step (f n : Nat) (ds : List Char) :
    Nat.toDigitsCore 10 (f + 1) n ds =
      if n / 10 = 0 then Nat.digitChar (n % 10) :: ds
      else Nat.toDigitsCore 10 f (n / 10) (Nat.digitChar (n % 10) :: ds) := by
  rfl

/-- The decimal digits of a number below 10000, as bytes. -/
theorem toDigits_bytes (n : Nat) (h : n < 10000) :
    (Nat.toDigits 10 n).map Char.toNat =
      if n < 10 then [0x30 + n]
      else if n < 100 then [0x30 + n / 10, 0x30 + n % 10]
      else if n < 1000 then [0x30 + n / 100, 0x30 + n / 10 % 10, 0x30 + n % 10]
      else [0x30 + n / 1000, 0x30 + n / 100 % 10, 0x30 + n / 10 % 10, 0x30 + n % 10] := by
  unfold Nat.toDigits
  by_cases h1 : n < 10
  · rw [if_pos h1, toDigitsCore_step, if_pos (by omega)]
    simp only [List.map_cons, List.map_nil]
    rw [digitChar_toNat _ (by omega)]
    simp only [List.cons.injEq, and_true]
    omega
  · rw [if_neg h1]
    obtain ⟨f, hf⟩ : ∃ f, n + 1 = f + 1 + 1 + 1 + 1 := ⟨n - 3, by omega⟩
    rw [hf]
    by_cases h2 : n < 100
    · rw [if_pos h2, toDigitsCore_step, if_neg (by omega), toDigitsCore_step, if_pos (by omega)]
      simp only [List.map_cons, List.map_nil]
      rw [digitChar_toNat _ (by omega), digitChar_toNat _ (by omega)]
      simp only [List.cons.injEq, and_true]
      omega
    · rw [if_neg h2]
      by_cases h3 : n < 1000
      · rw [if_pos h3, toDigitsCore_step, if_neg (by omega), toDigitsCore_step,
          if_neg (by omega), toDigitsCore_step, if_pos (by omega)]
        simp only [List.map_cons, List.map_nil]
        rw [digitChar_toNat _ (by omega), digitChar_toNat _ (by omega),
          digitChar_toNat _ (by omega)]
        simp only [List.cons.injEq, and_true]
        omega
      · rw [if_neg h3, toDigitsCore_step, if_neg (by omega), toDigitsCore_step,
          if_neg (by omega), toDigitsCore_step, if_neg (by omega), toDigitsCore_step,
          if_pos (by omega)]
        simp only [List.map_cons, List.map_nil]
        rw [digitChar_toNat _ (by omega), digitChar_toNat _ (by omega),
          digitChar_toNat _ (by omega), digitChar_toNat _ (by omega)]
        simp only [List.cons.injEq, and_true]
        omega

theorem appendInt_pad2 (n : Nat) (h : n < 100) : appendInt (n : Int) 2 = pad2 n := by
  unfold appendInt pad2
  simp only [Int.natAbs_ofNat, toDigits_bytes n (by omega)]
  have h0 : ¬ ((n : Int) < 0) := by omega
  rw [if_neg h0]
  by_cases h1 : n < 10
  · simp only [if_pos h1, List.length_cons, List.length_nil, List.nil_append]
    have e1 : n / 10 % 10 = 0 := by omega
    have e2 : n % 10 = n := by omega
    rw [e1, e2]
    rfl
  · simp only [if_neg h1, if_pos h, List.length_cons, List.length_nil, List.nil_append]
    have e1 : n / 10 % 10 = n / 10 := by omega
    rw [e1]
    rfl

theorem appendInt_pad4 (n : Nat) (h : n < 10000) : appendInt (n : Int) 4 = pad4 n := by
  unfold appendInt pad4
  simp only [Int.natAbs_ofNat, toDigits_bytes n h]
  have h0 : ¬ ((n : Int) < 0) := by omega
  rw [if_neg h0]
  by_cases h1 : n < 10
  · simp only [if_pos h1, List.length_cons, List.length_nil, List.nil_append]
    have e1 : n / 1000 % 10 = 0 := by omega
    have e2 : n / 100 % 10 = 0 := by omega
    have e3 : n / 10 % 10 = 0 := by omega
    have e4 : n % 10 = n := by omega
    rw [e1, e2, e3, e4]
    rfl
  · by_cases h2 : n < 100
    · simp only [if_neg h1, if_pos h2, List.length_cons, List.length_nil, List.nil_append]
      have e1 : n / 1000 % 10 = 0 := by omega
      have e2 : n / 100 % 10 = 0 := by omega
      have e3 : n / 10 % 10 = n / 10 := by omega
      rw [e1, e2, e3]
      rfl
    · by_cases h3 : n < 1000
      · simp only [if_neg h1, if_neg h2, if_pos h3, List.length_cons, List.length_nil,
          List.nil_append]
        have e1 : n / 1000 % 10 = 0 := by omega
        have e2 : n / 100 % 10 = n / 100 := by omega
        rw [e1, e2]
        rfl
      · simp only [if_neg h1, if_neg h2, if_neg h3, List.length_cons, List.length_nil,
          List.nil_append]
        have e1 : n / 1000 % 10 = n / 1000 := by omega
        rw [e1]
        rfl
/-! ## Format prints the civil time -/

theorem absSeconds_eq (t offset : Int) (hlo : -62167219200 ≤ t + offset)
    (hhi : t + offset < 253402300800) :
    ((absSeconds t offset : Nat) : Int) = t + offset + 9223372028715321600 := by
  unfold absSeconds
  omega

theorem timestamp_length (ct : CivilTime) (z : Zone) :
    (timestamp ct z).length = 25 + z.name.length := by
  have hsign : (if z.offset.tdiv 60 < 0 then goStr "-" else goStr "+").length = 1 := by
    split_ifs <;> rfl
  have h1 : (goStr "-").length = 1 := rfl
  have h2 : (goStr " ").length = 1 := rfl
  have h3 : (goStr ":").length = 1 := rfl
  simp only [timestamp, List.length_append, pad2, pad4, List.length_cons, List.length_nil,
    hsign, h1, h2, h3]
  omega

/-- Method `Format` on the layout of `getCurrentTime` prints the civil time of
the instant in the zone in effect as `YYYY-MM-DD HH:MM:SS ZZZ±HHMM`, when the
zone has an abbreviation and an offset under 100 hours and the local year is
one of 0000 to 9999. -/
theorem Format_eq_timestamp (loc : Location) (t : Int)
    (hn : (loc.lookup t).name ≠ [])
    (ho : -360000 < (loc.lookup t).offset ∧ (loc.lookup t).offset < 360000)
    (hr : -62167219200 ≤ t + (loc.lookup t).offset ∧
      t + (loc.lookup t).offset < 253402300800) :
    ∃ ct : CivilTime, isCivilTimeOf (t + (loc.lookup t).offset) ct ∧ ct.year ≤ 9999 ∧
      Format loc t layoutChunks = timestamp ct (loc.lookup t) := by
  rw [Format_fields loc t hn]
  generalize loc.lookup t = z at hn ho hr ⊢
  have hA := absSeconds_eq t z.offset hr.1 hr.2
  generalize absSeconds t z.offset = A at hA ⊢
  obtain ⟨y, m, d, hdate, hy, hm1, hm12, hd1, hdim, hdays⟩ :=
    absDate_civil A (by omega) (by omega)
  obtain ⟨hh, hmi, hs, hclock⟩ := absClock_spec A
  have hd31 : d ≤ 31 := by
    have : daysInMonth y m ≤ 31 := by
      unfold daysInMonth
      split <;> try split_ifs
      all_goals omega
    omega
  refine ⟨⟨y, m, d, (absClock A).1, (absClock A).2.1, (absClock A).2.2⟩,
    ⟨⟨hm1, hm12, hd1, hdim, hh, hmi, hs⟩, ?_⟩, hy, ?_⟩
  · unfold CivilTime.secondsSinceEpoch
    simp only [daysBeforeYear_1970]
    omega
  · have hmins : (z.offset.tdiv 60).natAbs < 6000 := by
      rw [Int.natAbs_tdiv]
      show z.offset.natAbs / 60 < 6000
      omega
    rw [hdate]
    simp only [appendInt_pad4 y (by omega), appendInt_pad2 m (by omega),
      appendInt_pad2 d (by omega), appendInt_pad2 (absClock A).1 (by omega),
      appendInt_pad2 (absClock A).2.1 (by omega), appendInt_pad2 (absClock A).2.2 (by omega),
      appendInt_pad2 ((z.offset.tdiv 60).natAbs / 60) (by omega),
      appendInt_pad2 ((z.offset.tdiv 60).natAbs % 60) (by omega), timestamp, List.append_assoc]

/-! ## A civil time is determined by its instant -/

theorem dayOfYear_lt (y m d : Nat) (hm1 : 1 ≤ m) (hm12 : m ≤ 12) (hd : d ≤ daysInMonth y m) :
    daysBeforeMonth y m + (d - 1) < daysInYear y := by
  obtain ⟨w1, w2, w3, w4, w5, w6, w7, w8, w9, w10, w11, w12⟩ := daysBeforeMonth_val y
  have hfeb : daysInMonth y 2 = if isLeapYear y then 29 else 28 := rfl
  unfold daysInYear
  interval_cases m <;> simp only [daysInMonth] at hd <;>
    simp only [w1, w2, w3, w4, w5, w6, w7, w8, w9, w10, w11, w12, hfeb] <;>
    split_ifs at hd ⊢ <;> omega

theorem daysBeforeYear_mono (a b : Nat) (h : a ≤ b) : daysBeforeYear a ≤ daysBeforeYear b := by
  induction b with
  | zero =>
    have h0 : a = 0 := by omega
    subst h0
    exact le_refl _
  | succ b ih =>
    rcases Nat.eq_or_lt_of_le h with h1 | h1
    · subst h1
      exact le_refl _
    · have := ih (by omega)
      rw [daysBeforeYear_succ]
      omega

theorem daysBeforeMonth_mono (y m m2 : Nat) (hm1 : 1 ≤ m) (hlt : m < m2) (hm12 : m2 ≤ 12) :
    daysBeforeMonth y m + daysInMonth y m ≤ daysBeforeMonth y m2 := by
  obtain ⟨w1, w2, w3, w4, w5, w6, w7, w8, w9, w10, w11, w12⟩ := daysBeforeMonth_val y
  have hm11 : m ≤ 11 := by omega
  interval_cases m <;> interval_cases m2 <;>
    simp only [w1, w2, w3, w4, w5, w6, w7, w8, w9, w10, w11, w12, daysInMonth] <;>
    (try split_ifs) <;> omega

/-- A valid date is determined by its day number. -/
theorem civilDate_unique (y m d y2 m2 d2 : Nat)
    (hm1 : 1 ≤ m) (hm12 : m ≤ 12) (hd1 : 1 ≤ d) (hd : d ≤ daysInMonth y m)
    (gm1 : 1 ≤ m2) (gm12 : m2 ≤ 12) (gd1 : 1 ≤ d2) (gd : d2 ≤ daysInMonth y2 m2)
    (h : daysBeforeYear y + daysBeforeMonth y m + (d - 1) =
      daysBeforeYear y2 + daysBeforeMonth y2 m2 + (d2 - 1)) :
    y = y2 ∧ m = m2 ∧ d = d2 := by
  have e1 := dayOfYear_lt y m d hm1 hm12 hd
  have e2 := dayOfYear_lt y2 m2 d2 gm1 gm12 gd
  have hy : y = y2 := by
    rcases Nat.lt_trichotomy y y2 with hlt | heq | hgt
    · have := daysBeforeYear_mono (y + 1) y2 hlt
      rw [daysBeforeYear_succ] at this
      omega
    · exact heq
    · have := daysBeforeYear_mono (y2 + 1) y hgt
      rw [daysBeforeYear_succ] at this
      omega
  subst hy
  have hm : m = m2 := by
    rcases Nat.lt_trichotomy m m2 with hlt | heq | hgt
    · have := daysBeforeMonth_mono y m m2 hm1 hlt gm12
      omega
    · exact heq
    · have := daysBeforeMonth_mono y m2 m gm1 hgt hm12
      omega
  subst hm
  exact ⟨rfl, rfl, by omega⟩

/-- At most one civil time lies a given number of seconds after the epoch. -/
theorem isCivilTimeOf_unique (localSec : Int) (ct ct2 : CivilTime)
    (h : isCivilTimeOf localSec ct) (h2 : isCivilTimeOf localSec ct2) : ct2 = ct := by
  obtain ⟨⟨hm1, hm12, hd1, hd, hh, hmi, hs⟩, he⟩ := h
  obtain ⟨⟨gm1, gm12, gd1, gd, gh, gmi, gs⟩, ge⟩ := h2
  unfold CivilTime.secondsSinceEpoch at he ge
  have hdays : daysBeforeYear ct.year + daysBeforeMonth ct.year ct.month + (ct.day - 1) =
      daysBeforeYear ct2.year + daysBeforeMonth ct2.year ct2.month + (ct2.day - 1) := by
    omega
  have hclock : ct.hour * 3600 + ct.minute * 60 + ct.second =
      ct2.hour * 3600 + ct2.minute * 60 + ct2.second := by
    omega
  obtain ⟨ey, em, ed⟩ := civilDate_unique _ _ _ _ _ _ hm1 hm12 hd1 hd gm1 gm12 gd1 gd hdays
  have eh : ct.hour = ct2.hour := by omega
  have emi : ct.minute = ct2.minute := by omega
  have es : ct.second = ct2.second := by omega
  cases ct
  cases ct2
  simp only [CivilTime.mk.injEq]
  simp only at ey em ed eh emi es
  exact ⟨ey.symm, em.symm, ed.symm, eh.symm, emi.symm, es.symm⟩

/-- The civil time 2024-01-15 07:00:00 lies 1705302000 seconds after the epoch. -/
theorem isCivilTimeOf_sample : isCivilTimeOf 1705302000 ⟨2024, 1, 15, 7, 0, 0⟩ := by
  refine ⟨⟨by decide, by decide, by decide, by decide, by decide, by decide, by decide⟩, ?_⟩
  unfold CivilTime.secondsSinceEpoch
  have h1 := daysBeforeYear_closed 2024
  have h2 := (daysBeforeMonth_val 2024).1
  simp only [daysBeforeYear_1970, h2]
  omega

/-! ## The properties of the specification -/

/-- C1: for every city obtained from "new york" by changing the case of some of
its ASCII letters, `getWeather` returns exactly the two-key map with status
"success" and the fixed report; the report is the same for every such city and
contains "25", "77" and "25 degrees Celsius". -/
theorem C1_getWeather_case_variants (U : Nat → Nat) (c : GoString)
    (h : isAsciiCaseVariant c) :
    getWeather U ⟨c⟩ =
      some (some [(goStr "status", .str (goStr "success")),
                  (goStr "report", .str (goStr "The weather in New York is sunny with a temperature of 25 degrees Celsius (77 degrees Fahrenheit)."))],
            none) ∧
    goStr "25" <:+: weatherReport ∧ goStr "77" <:+: weatherReport ∧
    goStr "25 degrees Celsius" <:+: weatherReport :=
  ⟨getWeather_newYork U c (isNewYork_of_variant c h),
   ⟨goStr "The weather in New York is sunny with a temperature of ",
    goStr " degrees Celsius (77 degrees Fahrenheit).", rfl⟩,
   ⟨goStr "The weather in New York is sunny with a temperature of 25 degrees Celsius (",
    goStr " degrees Fahrenheit).", rfl⟩,
   ⟨goStr "The weather in New York is sunny with a temperature of ",
    goStr " (77 degrees Fahrenheit).", rfl⟩⟩

/-- C1 at the cities "new york", "NEW YORK", "New York" and "nEw YoRk". -/
theorem C1_getWeather_case_variants_witness :
    (isAsciiCaseVariant (goStr "nEw YoRk") ∧
      getWeather (fun r => r) ⟨goStr "nEw YoRk"⟩ = some (successResult weatherReport)) ∧
    (isAsciiCaseVariant (goStr "NEW YORK") ∧
      getWeather (fun r => r) ⟨goStr "NEW YORK"⟩ = some (successResult weatherReport)) ∧
    (isAsciiCaseVariant (goStr "New York") ∧
      getWeather (fun r => r) ⟨goStr "New York"⟩ = some (successResult weatherReport)) ∧
    (isAsciiCaseVariant (goStr "new york") ∧
      getWeather (fun r => r) ⟨goStr "new york"⟩ = some (successResult weatherReport)) :=
  ⟨⟨by decide, (C1_getWeather_case_variants (fun r => r) (goStr "nEw YoRk") (by decide)).1⟩,
   ⟨by decide, (C1_getWeather_case_variants (fun r => r) (goStr "NEW YORK") (by decide)).1⟩,
   ⟨by decide, (C1_getWeather_case_variants (fun r => r) (goStr "New York") (by decide)).1⟩,
   ⟨by decide, (C1_getWeather_case_variants (fun r => r) (goStr "new york") (by decide)).1⟩⟩

/-- C2: `getWeather` returns a result with status "success" exactly when the
city equals "new york" under case-insensitive comparison; for every other city
it returns the map with status "error" and the message
"Weather information for '<city>' is not available.", which contains the city
verbatim. -/
theorem C2_getWeather_success_iff (U : Nat → Nat) (c : GoString) :
    ((∃ r, getWeather U ⟨c⟩ = some r ∧ statusOf r = some (.str (goStr "success"))) ↔
      isNewYork c) ∧
    (¬ isNewYork c →
      getWeather U ⟨c⟩ =
        some (some [(goStr "status", .str (goStr "error")),
                    (goStr "error_message",
                      .str (goStr "Weather information for '" ++ c ++ goStr "' is not available."))],
              none) ∧
      c <:+: goStr "Weather information for '" ++ c ++ goStr "' is not available.") := by
  constructor
  · constructor
    · rintro ⟨r, hr, hs⟩
      by_contra hc
      rw [getWeather_other U c hc] at hr
      injection hr with hr
      rw [← hr, statusOf_errorResult] at hs
      injection hs with hs
      exact error_ne_success hs
    · intro h
      exact ⟨_, getWeather_newYork U c h, statusOf_successResult _⟩
  · intro h
    exact ⟨getWeather_other U c h, ⟨_, _, rfl⟩⟩

/-- C2 at the cities "Paris", "" and "100%s 'x' \"y\"". -/
theorem C2_getWeather_success_iff_witness :
    (¬ isNewYork (goStr "Paris") ∧
      getWeather (fun r => r) ⟨goStr "Paris"⟩ =
        some (errorResult (goStr "Weather information for 'Paris' is not available."))) ∧
    (¬ isNewYork [] ∧
      getWeather (fun r => r) ⟨[]⟩ =
        some (errorResult (goStr "Weather information for '' is not available."))) ∧
    (¬ isNewYork (goStr "100%s 'x' \"y\"") ∧
      getWeather (fun r => r) ⟨goStr "100%s 'x' \"y\""⟩ =
        some (errorResult
          (goStr "Weather information for '100%s 'x' \"y\"' is not available."))) :=
  ⟨⟨by decide, ((C2_getWeather_success_iff (fun r => r) (goStr "Paris")).2 (by decide)).1⟩,
   ⟨by decide, ((C2_getWeather_success_iff (fun r => r) []).2 (by decide)).1⟩,
   ⟨by decide,
    ((C2_getWeather_success_iff (fun r => r) (goStr "100%s 'x' \"y\"")).2 (by decide)).1⟩⟩

/-- C3, with provisos: for every city equal to "new york" under case-insensitive
comparison, when the America/New_York location loads, and provided that the
zone in effect at the current instant has a non-empty abbreviation and an offset
under 100 hours and that the local year of the instant is one of 0000 to 9999,
`getCurrentTime` returns the success map whose report is
"The current time in <city> is <timestamp>", with the city as supplied; the
timestamp renders as `YYYY-MM-DD HH:MM:SS ZZZ±HHMM` the one civil date and time
of day that lies as many seconds after 1970-01-01 00:00:00 as the instant
shifted by the zone offset. For the city "new york" the instant
2024-01-15T12:00:00Z (Eastern Standard Time, UTC-5) gives
"The current time in new york is 2024-01-15 07:00:00 EST-0500" and the instant
2024-07-15T12:00:00Z (Eastern Daylight Time, UTC-4) gives
"The current time in new york is 2024-07-15 08:00:00 EDT-0400". -/
theorem C3_getCurrentTime_report (U : Nat → Nat) (env : TimeEnv) (c : GoString)
    (loc : Location) (h : isNewYork c)
    (hl : env.LoadLocation (goStr "America/New_York") = .ok loc) :
    ((loc.lookup env.Now).name ≠ [] →
      (-360000 < (loc.lookup env.Now).offset ∧ (loc.lookup env.Now).offset < 360000) →
      (-62167219200 ≤ env.Now + (loc.lookup env.Now).offset ∧
        env.Now + (loc.lookup env.Now).offset < 253402300800) →
      ∃ ct : CivilTime,
        isCivilTimeOf (env.Now + (loc.lookup env.Now).offset) ct ∧
        (∀ ct2 : CivilTime,
          isCivilTimeOf (env.Now + (loc.lookup env.Now).offset) ct2 → ct2 = ct) ∧
        ct.year ≤ 9999 ∧
        getCurrentTime U env ⟨c⟩ =
          some (some [(goStr "status", .str (goStr "success")),
                      (goStr "report",
                        .str (goStr "The current time in " ++ c ++ goStr " is " ++
                          timestamp ct (loc.lookup env.Now)))],
                none)) ∧
    (c = goStr "new york" → env.Now = 1705320000 →
      loc.lookup 1705320000 = ⟨goStr "EST", -18000⟩ →
      getCurrentTime U env ⟨c⟩ =
        some (some [(goStr "status", .str (goStr "success")),
                    (goStr "report",
                      .str (goStr "The current time in new york is 2024-01-15 07:00:00 EST-0500"))],
              none)) ∧
    (c = goStr "new york" → env.Now = 1721044800 →
      loc.lookup 1721044800 = ⟨goStr "EDT", -14400⟩ →
      getCurrentTime U env ⟨c⟩ =
        some (some [(goStr "status", .str (goStr "success")),
                    (goStr "report",
                      .str (goStr "The current time in new york is 2024-07-15 08:00:00 EDT-0400"))],
              none)) := by
  refine ⟨?_, ?_, ?_⟩
  · intro hn ho hr
    obtain ⟨ct, hct, hy, hf⟩ := Format_eq_timestamp loc env.Now hn ho hr
    refine ⟨ct, hct, fun ct2 h2 => isCivilTimeOf_unique _ ct ct2 hct h2, hy, ?_⟩
    rw [getCurrentTime_loaded U env c loc h hl, hf]
    rfl
  · intro hc hnow hz
    have hf : goStr "The current time in " ++ goStr "new york" ++ goStr " is " ++
        Format ⟨fun _ => ⟨goStr "EST", -18000⟩⟩ 1705320000 layoutChunks =
        goStr "The current time in new york is 2024-01-15 07:00:00 EST-0500" := by decide
    rw [getCurrentTime_loaded U env c loc h hl, hnow, Format_of_lookup loc _ _ hz, hc, hf]
    rfl
  · intro hc hnow hz
    have hf : goStr "The current time in " ++ goStr "new york" ++ goStr " is " ++
        Format ⟨fun _ => ⟨goStr "EDT", -14400⟩⟩ 1721044800 layoutChunks =
        goStr "The current time in new york is 2024-07-15 08:00:00 EDT-0400" := by decide
    rw [getCurrentTime_loaded U env c loc h hl, hnow, Format_of_lookup loc _ _ hz, hc, hf]
    rfl

/-- C3 with the New York zones of 2024: the instants 2024-01-15T12:00:00Z and
2024-07-15T12:00:00Z for the city "new york", and the city "NEW YORK", for
which the report repeats the capitals and renders the civil time
2024-01-15 07:00:00. -/
theorem C3_getCurrentTime_report_witness :
    getCurrentTime (fun r => r) winterEnv ⟨goStr "new york"⟩ =
      some (successResult
        (goStr "The current time in new york is 2024-01-15 07:00:00 EST-0500")) ∧
    getCurrentTime (fun r => r) summerEnv ⟨goStr "new york"⟩ =
      some (successResult
        (goStr "The current time in new york is 2024-07-15 08:00:00 EDT-0400")) ∧
    (isCivilTimeOf 1705302000 ⟨2024, 1, 15, 7, 0, 0⟩ ∧
      timestamp ⟨2024, 1, 15, 7, 0, 0⟩ ⟨goStr "EST", -18000⟩ =
        goStr "2024-01-15 07:00:00 EST-0500" ∧
      getCurrentTime (fun r => r) winterEnv ⟨goStr "NEW YORK"⟩ =
        some (successResult
          (goStr "The current time in " ++ goStr "NEW YORK" ++ goStr " is " ++
            timestamp ⟨2024, 1, 15, 7, 0, 0⟩ ⟨goStr "EST", -18000⟩))) := by
  refine ⟨(C3_getCurrentTime_report (fun r => r) winterEnv (goStr "new york") newYork2024
      (by decide) rfl).2.1 rfl rfl (by decide),
    (C3_getCurrentTime_report (fun r => r) summerEnv (goStr "new york") newYork2024
      (by decide) rfl).2.2 rfl rfl (by decide), isCivilTimeOf_sample, by decide, ?_⟩
  obtain ⟨ct, _, huniq, _, hres⟩ :=
    (C3_getCurrentTime_report (fun r => r) winterEnv (goStr "NEW YORK") newYork2024
      (by decide) rfl).1 (by decide) (by decide) (by decide)
  have hct : (⟨2024, 1, 15, 7, 0, 0⟩ : CivilTime) = ct := huniq _ isCivilTimeOf_sample
  rw [hres, ← hct]
  rfl

/-- C3 fails without its provisos: with a zone that has no abbreviation `Format`
prints the offset twice
("2024-01-15 07:00:00 -0500-0500"), in the year 10000 it prints five digits of
year ("10000-01-01 00:00:00 EST-0500"), and with an offset of 100 hours it
prints three digits of hours ("2024-01-19 16:00:00 XXX+10000"); none of these
reports holds a timestamp `YYYY-MM-DD HH:MM:SS ZZZ±HHMM` of any civil time. -/
theorem C3_getCurrentTime_report_counterexample :
    (getCurrentTime (fun r => r) noAbbreviationEnv ⟨goStr "new york"⟩ =
        some (successResult
          (goStr "The current time in new york is 2024-01-15 07:00:00 -0500-0500")) ∧
      ¬ ∃ ct : CivilTime,
        getCurrentTime (fun r => r) noAbbreviationEnv ⟨goStr "new york"⟩ =
          some (successResult
            (goStr "The current time in " ++ goStr "new york" ++ goStr " is " ++
              timestamp ct ⟨[], -18000⟩))) ∧
    (getCurrentTime (fun r => r) year10000Env ⟨goStr "new york"⟩ =
        some (successResult
          (goStr "The current time in new york is 10000-01-01 00:00:00 EST-0500")) ∧
      ¬ ∃ ct : CivilTime,
        getCurrentTime (fun r => r) year10000Env ⟨goStr "new york"⟩ =
          some (successResult
            (goStr "The current time in " ++ goStr "new york" ++ goStr " is " ++
              timestamp ct ⟨goStr "EST", -18000⟩))) ∧
    (getCurrentTime (fun r => r) hundredHoursEnv ⟨goStr "new york"⟩ =
        some (successResult
          (goStr "The current time in new york is 2024-01-19 16:00:00 XXX+10000")) ∧
      ¬ ∃ ct : CivilTime,
        getCurrentTime (fun r => r) hundredHoursEnv ⟨goStr "new york"⟩ =
          some (successResult
            (goStr "The current time in " ++ goStr "new york" ++ goStr " is " ++
              timestamp ct ⟨goStr "XXX", 360000⟩))) := by
  have hny : isNewYork (goStr "new york") := by decide
  have r1 : getCurrentTime (fun r => r) noAbbreviationEnv ⟨goStr "new york"⟩ =
      some (successResult
        (goStr "The current time in new york is 2024-01-15 07:00:00 -0500-0500")) := by
    have hf : goStr "The current time in " ++ goStr "new york" ++ goStr " is " ++
        Format ⟨fun _ => ⟨[], -18000⟩⟩ noAbbreviationEnv.Now layoutChunks =
        goStr "The current time in new york is 2024-01-15 07:00:00 -0500-0500" := by decide
    rw [getCurrentTime_loaded _ noAbbreviationEnv _ ⟨fun _ => ⟨[], -18000⟩⟩ hny rfl, hf]
  have r2 : getCurrentTime (fun r => r) year10000Env ⟨goStr "new york"⟩ =
      some (successResult
        (goStr "The current time in new york is 10000-01-01 00:00:00 EST-0500")) := by
    have hf : goStr "The current time in " ++ goStr "new york" ++ goStr " is " ++
        Format ⟨fun _ => ⟨goStr "EST", -18000⟩⟩ year10000Env.Now layoutChunks =
        goStr "The current time in new york is 10000-01-01 00:00:00 EST-0500" := by decide
    rw [getCurrentTime_loaded _ year10000Env _ ⟨fun _ => ⟨goStr "EST", -18000⟩⟩ hny rfl, hf]
  have r3 : getCurrentTime (fun r => r) hundredHoursEnv ⟨goStr "new york"⟩ =
      some (successResult
        (goStr "The current time in new york is 2024-01-19 16:00:00 XXX+10000")) := by
    have hf : goStr "The current time in " ++ goStr "new york" ++ goStr " is " ++
        Format ⟨fun _ => ⟨goStr "XXX", 360000⟩⟩ hundredHoursEnv.Now layoutChunks =
        goStr "The current time in new york is 2024-01-19 16:00:00 XXX+10000" := by decide
    rw [getCurrentTime_loaded _ hundredHoursEnv _ ⟨fun _ => ⟨goStr "XXX", 360000⟩⟩ hny rfl, hf]
  refine ⟨⟨r1, ?_⟩, ⟨r2, ?_⟩, ⟨r3, ?_⟩⟩
  · rintro ⟨ct, hct⟩
    rw [r1] at hct
    simp only [successResult, Option.some.injEq, Prod.mk.injEq, List.cons.injEq,
      GoAny.str.injEq, and_true, true_and] at hct
    have hlen := congrArg List.length hct
    rw [List.length_append, timestamp_length] at hlen
    exact absurd hlen (by decide)
  · rintro ⟨ct, hct⟩
    rw [r2] at hct
    simp only [successResult, Option.some.injEq, Prod.mk.injEq, List.cons.injEq,
      GoAny.str.injEq, and_true, true_and] at hct
    have hlen := congrArg List.length hct
    rw [List.length_append, timestamp_length] at hlen
    exact absurd hlen (by decide)
  · rintro ⟨ct, hct⟩
    rw [r3] at hct
    simp only [successResult, Option.some.injEq, Prod.mk.injEq, List.cons.injEq,
      GoAny.str.injEq, and_true, true_and] at hct
    have hlen := congrArg List.length hct
    rw [List.length_append, timestamp_length] at hlen
    exact absurd hlen (by decide)

/-- C4: for every city not equal to "new york" under case-insensitive
comparison, `getCurrentTime` returns the map with status "error" and the message
"Sorry, I don't have timezone information for <city>.", which names the city
verbatim; the result is the same whatever the clock reads and whatever the
timezone database holds. -/
theorem C4_getCurrentTime_unknown_city (U : Nat → Nat) (env : TimeEnv) (c : GoString)
    (h : ¬ isNewYork c) :
    getCurrentTime U env ⟨c⟩ =
      some (some [(goStr "status", .str (goStr "error")),
                  (goStr "error_message",
                    .str (goStr "Sorry, I don't have timezone information for " ++ c ++
                      goStr "."))],
            none) ∧
    c <:+: goStr "Sorry, I don't have timezone information for " ++ c ++ goStr "." ∧
    ∀ env2 : TimeEnv, getCurrentTime U env2 ⟨c⟩ = getCurrentTime U env ⟨c⟩ :=
  ⟨getCurrentTime_other U env c h, ⟨_, _, rfl⟩,
   fun env2 => (getCurrentTime_other U env2 c h).trans (getCurrentTime_other U env c h).symm⟩

/-- C4 at the city "Tokyo": the same error with the New York zones loaded and
with no timezone database. -/
theorem C4_getCurrentTime_unknown_city_witness :
    ¬ isNewYork (goStr "Tokyo") ∧
    getCurrentTime (fun r => r) winterEnv ⟨goStr "Tokyo"⟩ =
      some (errorResult (goStr "Sorry, I don't have timezone information for Tokyo.")) ∧
    getCurrentTime (fun r => r) noZoneEnv ⟨goStr "Tokyo"⟩ =
      getCurrentTime (fun r => r) winterEnv ⟨goStr "Tokyo"⟩ :=
  ⟨by decide,
   (C4_getCurrentTime_unknown_city (fun r => r) winterEnv (goStr "Tokyo") (by decide)).1,
   (C4_getCurrentTime_unknown_city (fun r => r) winterEnv (goStr "Tokyo") (by decide)).2.2
     noZoneEnv⟩

/-- Function `getWeather` returns one of the two result shapes. -/
theorem getWeather_cases (U : Nat → Nat) (c : GoString) :
    (∃ report, getWeather U ⟨c⟩ = some (successResult report)) ∨
    (∃ message, getWeather U ⟨c⟩ = some (errorResult message)) := by
  by_cases h : isNewYork c
  · exact Or.inl ⟨_, getWeather_newYork U c h⟩
  · exact Or.inr ⟨_, getWeather_other U c h⟩

/-- Function `getCurrentTime` returns one of the two result shapes. -/
theorem getCurrentTime_cases (U : Nat → Nat) (env : TimeEnv) (c : GoString) :
    (∃ report, getCurrentTime U env ⟨c⟩ = some (successResult report)) ∨
    (∃ message, getCurrentTime U env ⟨c⟩ = some (errorResult message)) := by
  by_cases h : isNewYork c
  · cases hl : env.LoadLocation (goStr "America/New_York") with
    | error e => exact Or.inr ⟨_, getCurrentTime_loadFailed U env c e h hl⟩
    | ok loc => exact Or.inl ⟨_, getCurrentTime_loaded U env c loc h hl⟩
  · exact Or.inr ⟨_, getCurrentTime_other U env c h⟩

/-- Either result shape is exactly one of the two recognised map shapes. -/
theorem shape_of_cases (r : Option HandlerResult)
    (h : (∃ report, r = some (successResult report)) ∨
      (∃ message, r = some (errorResult message))) :
    ∃ m : GoMap, r = some (some m, none) ∧ Xor' (isSuccessShape m) (isErrorShape m) ∧
      ¬ (goStr "report" ∈ m.keys ∧ goStr "error_message" ∈ m.keys) ∧ m.keys.Nodup := by
  rcases h with ⟨report, hr⟩ | ⟨message, hr⟩
  · refine ⟨_, hr, Or.inl ⟨successShape_successResult report, ?_⟩, ?_, ?_⟩
    · exact fun he => shapes_exclusive _ (successShape_successResult report) he
    · exact shape_keys _ (Or.inl (successShape_successResult report))
    · show [goStr "status", goStr "report"].Nodup
      decide
  · refine ⟨_, hr, Or.inr ⟨errorShape_errorResult message, ?_⟩, ?_, ?_⟩
    · exact fun hs => shapes_exclusive _ hs (errorShape_errorResult message)
    · exact shape_keys _ (Or.inr (errorShape_errorResult message))
    · show [goStr "status", goStr "error_message"].Nodup
      decide

/-- C5: for every city, every current instant and every outcome of the
timezone lookup, the map `getWeather` returns and the map `getCurrentTime`
returns has exactly one of the two shapes (status "success" with a string
`report` and no `error_message`, or status "error" with a string
`error_message` and no `report`), has no key outside its shape, never holds
both `report` and `error_message`, and holds each key once. -/
theorem C5_result_shapes (U : Nat → Nat) (env : TimeEnv) (c : GoString) :
    (∃ m : GoMap, getWeather U ⟨c⟩ = some (some m, none) ∧
      Xor' (isSuccessShape m) (isErrorShape m) ∧
      ¬ (goStr "report" ∈ m.keys ∧ goStr "error_message" ∈ m.keys) ∧ m.keys.Nodup) ∧
    (∃ m : GoMap, getCurrentTime U env ⟨c⟩ = some (some m, none) ∧
      Xor' (isSuccessShape m) (isErrorShape m) ∧
      ¬ (goStr "report" ∈ m.keys ∧ goStr "error_message" ∈ m.keys) ∧ m.keys.Nodup) :=
  ⟨shape_of_cases _ (getWeather_cases U c), shape_of_cases _ (getCurrentTime_cases U env c)⟩

/-- C6: in `getCurrentTime`, for a city equal to "new york" under
case-insensitive comparison, when loading "America/New_York" fails with an error
of text `e` the handler returns the map with status "error" and the message
"Failed to load timezone data for America/New_York: <e>"; the map has no
`report`, the message contains `e`, and the result does not depend on the
current instant. -/
theorem C6_getCurrentTime_load_failure (U : Nat → Nat) (env : TimeEnv) (c e : GoString)
    (h : isNewYork c) (he : env.LoadLocation (goStr "America/New_York") = .error e) :
    getCurrentTime U env ⟨c⟩ =
      some (some [(goStr "status", .str (goStr "error")),
                  (goStr "error_message",
                    .str (goStr "Failed to load timezone data for America/New_York: " ++ e))],
            none) ∧
    (∀ m : GoMap, getCurrentTime U env ⟨c⟩ = some (some m, none) →
      m.get (goStr "report") = none) ∧
    e <:+: goStr "Failed to load timezone data for America/New_York: " ++ e ∧
    ∀ now : Int, getCurrentTime U ⟨env.LoadLocation, now⟩ ⟨c⟩ = getCurrentTime U env ⟨c⟩ := by
  refine ⟨getCurrentTime_loadFailed U env c e h he, ?_,
    ⟨goStr "Failed to load timezone data for America/New_York: ", [],
      List.append_nil _⟩, ?_⟩
  · intro m hm
    rw [getCurrentTime_loadFailed U env c e h he] at hm
    injection hm with hm
    injection hm with hm _
    injection hm with hm
    rw [← hm]
    rfl
  · intro now
    rw [getCurrentTime_loadFailed U env c e h he,
      getCurrentTime_loadFailed U ⟨env.LoadLocation, now⟩ c e h he]

/-- C6 with no timezone database, for the city "New York". -/
theorem C6_getCurrentTime_load_failure_witness :
    isNewYork (goStr "New York") ∧
    getCurrentTime (fun r => r) noZoneEnv ⟨goStr "New York"⟩ =
      some (errorResult
        (goStr "Failed to load timezone data for America/New_York: unknown time zone America/New_York")) ∧
    getCurrentTime (fun r => r) ⟨noZoneEnv.LoadLocation, 1705320000⟩ ⟨goStr "New York"⟩ =
      getCurrentTime (fun r => r) noZoneEnv ⟨goStr "New York"⟩ :=
  ⟨by decide,
   (C6_getCurrentTime_load_failure (fun r => r) noZoneEnv (goStr "New York")
      (goStr "unknown time zone America/New_York") (by decide) rfl).1,
   (C6_getCurrentTime_load_failure (fun r => r) noZoneEnv (goStr "New York")
      (goStr "unknown time zone America/New_York") (by decide) rfl).2.2.2 1705320000⟩

/-- C7: for every city (the empty string included), every current instant and
every outcome of the timezone lookup, `getWeather` and `getCurrentTime` return a
non-nil map together with a nil error; an unknown city and a failed timezone
load are reported by status "error" in that map. -/
theorem C7_no_out_of_band_error (U : Nat → Nat) (env : TimeEnv) (c : GoString) :
    (∃ m : GoMap, getWeather U ⟨c⟩ = some (some m, none)) ∧
    (∃ m : GoMap, getCurrentTime U env ⟨c⟩ = some (some m, none)) ∧
    (¬ isNewYork c →
      (getWeather U ⟨c⟩).map statusOf = some (some (.str (goStr "error"))) ∧
      (getCurrentTime U env ⟨c⟩).map statusOf = some (some (.str (goStr "error")))) ∧
    (∀ e, isNewYork c → env.LoadLocation (goStr "America/New_York") = .error e →
      (getCurrentTime U env ⟨c⟩).map statusOf = some (some (.str (goStr "error")))) := by
  refine ⟨?_, ?_, ?_, ?_⟩
  · obtain ⟨m, hm, _⟩ := shape_of_cases _ (getWeather_cases U c)
    exact ⟨m, hm⟩
  · obtain ⟨m, hm, _⟩ := shape_of_cases _ (getCurrentTime_cases U env c)
    exact ⟨m, hm⟩
  · intro h
    rw [getWeather_other U c h, getCurrentTime_other U env c h]
    exact ⟨rfl, rfl⟩
  · intro e h he
    rw [getCurrentTime_loadFailed U env c e h he]
    rfl

/-- C7 at the empty city, and at "new york" with no timezone database. -/
theorem C7_no_out_of_band_error_witness :
    (¬ isNewYork [] ∧
      (getWeather (fun r => r) ⟨[]⟩).map statusOf = some (some (.str (goStr "error"))) ∧
      (getCurrentTime (fun r => r) winterEnv ⟨[]⟩).map statusOf =
        some (some (.str (goStr "error")))) ∧
    (isNewYork (goStr "new york") ∧
      (getCurrentTime (fun r => r) noZoneEnv ⟨goStr "new york"⟩).map statusOf =
        some (some (.str (goStr "error")))) :=
  ⟨⟨by decide, (C7_no_out_of_band_error (fun r => r) winterEnv []).2.2.1 (by decide)⟩,
   ⟨by decide,
    (C7_no_out_of_band_error (fun r => r) noZoneEnv (goStr "new york")).2.2.2
      (goStr "unknown time zone America/New_York") (by decide) rfl⟩⟩

/-- C8: the city is compared after case folding only. Every city that differs
from "new york" by more than letter case gets the status "error" result from
both `getWeather` and `getCurrentTime`, and the error message reproduces the
city unchanged; such are " New York", "New York ", "New  York", "NewYork",
"New York, NY" and "New York City". -/
theorem C8_no_normalisation_beyond_case :
    (∀ (U : Nat → Nat) (env : TimeEnv) (c : GoString), ¬ isNewYork c →
      getWeather U ⟨c⟩ =
        some (errorResult
          (goStr "Weather information for '" ++ c ++ goStr "' is not available.")) ∧
      getCurrentTime U env ⟨c⟩ =
        some (errorResult
          (goStr "Sorry, I don't have timezone information for " ++ c ++ goStr ".")) ∧
      c <:+: goStr "Weather information for '" ++ c ++ goStr "' is not available." ∧
      c <:+: goStr "Sorry, I don't have timezone information for " ++ c ++ goStr ".") ∧
    ¬ isNewYork (goStr " New York") ∧ ¬ isNewYork (goStr "New York ") ∧
    ¬ isNewYork (goStr "New  York") ∧ ¬ isNewYork (goStr "NewYork") ∧
    ¬ isNewYork (goStr "New York, NY") ∧ ¬ isNewYork (goStr "New York City") := by
  refine ⟨?_, by decide, by decide, by decide, by decide, by decide, by decide⟩
  intro U env c h
  exact ⟨getWeather_other U c h, getCurrentTime_other U env c h, ⟨_, _, rfl⟩, ⟨_, _, rfl⟩⟩

/-- C8 at the cities " New York" and "New York ": the blank stays in the message. -/
theorem C8_no_normalisation_beyond_case_witness :
    (getWeather (fun r => r) ⟨goStr " New York"⟩ =
        some (errorResult (goStr "Weather information for ' New York' is not available.")) ∧
      getCurrentTime (fun r => r) winterEnv ⟨goStr " New York"⟩ =
        some (errorResult (goStr "Sorry, I don't have timezone information for  New York."))) ∧
    (getWeather (fun r => r) ⟨goStr "New York "⟩ =
        some (errorResult (goStr "Weather information for 'New York ' is not available.")) ∧
      getCurrentTime (fun r => r) winterEnv ⟨goStr "New York "⟩ =
        some (errorResult (goStr "Sorry, I don't have timezone information for New York ."))) :=
  ⟨⟨(C8_no_normalisation_beyond_case.1 (fun r => r) winterEnv (goStr " New York")
        C8_no_normalisation_beyond_case.2.1).1,
    (C8_no_normalisation_beyond_case.1 (fun r => r) winterEnv (goStr " New York")
        C8_no_normalisation_beyond_case.2.1).2.1⟩,
   ⟨(C8_no_normalisation_beyond_case.1 (fun r => r) winterEnv (goStr "New York ")
        C8_no_normalisation_beyond_case.2.2.1).1,
    (C8_no_normalisation_beyond_case.1 (fun r => r) winterEnv (goStr "New York ")
        C8_no_normalisation_beyond_case.2.2.1).2.1⟩⟩

/-- C9: when the model and the two tools are created, `main` registers exactly
two tools, first "get_weather" (bound to `getWeather`, described as "Retrieves
the current weather report for a specified city.") and then "get_current_time"
(bound to `getCurrentTime`, described as "Returns the current time in a
specified city."), and builds the root agent "weather_time_agent" with the tool
list [weather, time]; it registers no other tool and builds no other agent. -/
theorem C9_main_registers_two_tools {Model Tool Agent : Type}
    (kit : Kit Model Tool Agent) (osArgs : List GoString) (model : Model)
    (weatherTool timeTool : Tool)
    (hm : kit.NewModel (kit.Getenv (goStr "LLM_MODEL")) (kit.Getenv (goStr "GOOGLE_API_KEY")) =
      .ok model)
    (hw : kit.functiontoolNew
      { Name := goStr "get_weather",
        Description := goStr "Retrieves the current weather report for a specified city." }
      (fun U _ args => getWeather U args) = .ok weatherTool)
    (ht : kit.functiontoolNew
      { Name := goStr "get_current_time",
        Description := goStr "Returns the current time in a specified city." }
      getCurrentTime = .ok timeTool) :
    (main kit osArgs).take 4 =
      [.NewModel (kit.Getenv (goStr "LLM_MODEL")) (kit.Getenv (goStr "GOOGLE_API_KEY")),
       .functiontoolNew
         { Name := goStr "get_weather",
           Description := goStr "Retrieves the current weather report for a specified city." }
         (fun U _ args => getWeather U args),
       .functiontoolNew
         { Name := goStr "get_current_time",
           Description := goStr "Returns the current time in a specified city." }
         getCurrentTime,
       .llmagentNew
         { Name := goStr "weather_time_agent",
           Model := model,
           Description := goStr "Agent to answer questions about the time and weather in a city.",
           Instruction := goStr "You are a helpful agent who can answer user questions about the time and weather in a city.",
           Tools := [weatherTool, timeTool] }] ∧
    ∀ call ∈ (main kit osArgs).drop 4, call.isAssembly = false := by
  unfold main
  rw [hm]
  simp only [hw, ht]
  refine ⟨rfl, ?_⟩
  simp only [List.drop_succ_cons, List.drop_zero]
  intro call hcall
  split at hcall
  · simp only [List.mem_singleton] at hcall
    rw [hcall]
    rfl
  · split at hcall
    · simp only [List.mem_cons, List.mem_singleton, List.not_mem_nil, or_false] at hcall
      rcases hcall with hcall | hcall <;> rw [hcall] <;> rfl
    · simp only [List.mem_singleton] at hcall
      rw [hcall]
      rfl

/-- C9 with a kit whose constructors return what they are given: the tools of
the root agent are the two registrations, in the order weather, time. -/
theorem C9_main_registers_two_tools_witness :
    ((main freeKit [goStr "agent"]).take 4).map Call.isAssembly = [false, true, true, true] ∧
    ∀ call ∈ (main freeKit [goStr "agent"]).drop 4, call.isAssembly = false :=
  ⟨congrArg (List.map Call.isAssembly)
      (C9_main_registers_two_tools freeKit [goStr "agent"]
        (goStr "LLM_MODEL", goStr "GOOGLE_API_KEY")
        ({ Name := goStr "get_weather",
           Description := goStr "Retrieves the current weather report for a specified city." },
         fun U _ args => getWeather U args)
        ({ Name := goStr "get_current_time",
           Description := goStr "Returns the current time in a specified city." },
         getCurrentTime) rfl rfl rfl).1,
   (C9_main_registers_two_tools freeKit [goStr "agent"]
        (goStr "LLM_MODEL", goStr "GOOGLE_API_KEY")
        ({ Name := goStr "get_weather",
           Description := goStr "Retrieves the current weather report for a specified city." },
         fun U _ args => getWeather U args)
        ({ Name := goStr "get_current_time",
           Description := goStr "Returns the current time in a specified city." },
         getCurrentTime) rfl rfl rfl).2⟩

/-- C10: the city match is Unicode simple case folding. The city "new yor"
followed by U+212A KELVIN SIGN is not "new york" with the case of ASCII letters
changed, yet `getWeather` returns the success result for it and `getCurrentTime`,
when the location loads, returns a success report that repeats it. Conversely
every city for which either handler returns status "success" has exactly 8
runes, and they fold one by one to the runes of "new york". -/
theorem C10_unicode_case_folding :
    (¬ isAsciiCaseVariant kelvinCity ∧
      runes kelvinCity = [0x6E, 0x65, 0x77, 0x20, 0x79, 0x6F, 0x72, 0x212A]) ∧
    (∀ U : Nat → Nat, getWeather U ⟨kelvinCity⟩ = some (successResult weatherReport)) ∧
    (∀ (U : Nat → Nat) (env : TimeEnv) (loc : Location),
      env.LoadLocation (goStr "America/New_York") = .ok loc →
      getCurrentTime U env ⟨kelvinCity⟩ =
        some (successResult
          (goStr "The current time in " ++ kelvinCity ++ goStr " is " ++
            Format loc env.Now layoutChunks))) ∧
    (∀ (U : Nat → Nat) (env : TimeEnv) (c : GoString),
      ((getWeather U ⟨c⟩).map statusOf = some (some (.str (goStr "success"))) ∨
        (getCurrentTime U env ⟨c⟩).map statusOf = some (some (.str (goStr "success")))) →
      (runes c).length = 8 ∧ (runes c).map foldRune = runes (goStr "new york")) := by
  refine ⟨⟨by decide, by decide⟩, ?_, ?_, ?_⟩
  · intro U
    exact getWeather_newYork U kelvinCity (by decide)
  · intro U env loc hl
    exact getCurrentTime_loaded U env kelvinCity loc (by decide) hl
  · intro U env c h
    have hny : isNewYork c := by
      by_contra hc
      rcases h with h | h
      · rw [getWeather_other U c hc, Option.map_some', statusOf_errorResult] at h
        exact absurd h (by decide)
      · rw [getCurrentTime_other U env c hc, Option.map_some', statusOf_errorResult] at h
        exact absurd h (by decide)
    have hr : runes (goStr "new york") = goStr "new york" := by decide
    unfold isNewYork at hny
    refine ⟨?_, by rw [hr]; exact hny⟩
    have hlen := congrArg List.length hny
    rw [List.length_map] at hlen
    rw [hlen]
    decide

/-- C10 at the KELVIN SIGN city with the New York zones of 2024: the report
repeats the non-ASCII city, and the city has 8 runes that fold to "new york". -/
theorem C10_unicode_case_folding_witness :
    getCurrentTime (fun r => r) winterEnv ⟨kelvinCity⟩ =
      some (successResult
        (goStr "The current time in " ++ kelvinCity ++ goStr " is " ++
          Format newYork2024 1705320000 layoutChunks)) ∧
    ((runes kelvinCity).length = 8 ∧
      (runes kelvinCity).map foldRune = runes (goStr "new york")) :=
  ⟨C10_unicode_case_folding.2.2.1 (fun r => r) winterEnv newYork2024 rfl,
   C10_unicode_case_folding.2.2.2 (fun r => r) winterEnv kelvinCity
     (Or.inl (congrArg (Option.map statusOf) (C10_unicode_case_folding.2.1 (fun r => r))))⟩

end MultiToolAgent
